/-
Verification of the Linux hidraw back-end (src/linux/hid.c) of the hidapi
library, against its natural-language specification.

The C functions are shallowly embedded as executable Lean definitions:
  * byte buffers are `List Nat` (each entry a byte value; out-of-buffer
    reads of the zero-initialised 4096-byte descriptor buffer are modelled
    by `List.getD _ _ 0`),
  * C strings are `List Char`,
  * machine-integer narrowing is explicit (`% 65536` for `unsigned short`),
  * heap allocation (strdup / wcsdup / calloc records) is modelled by an
    explicit allocation counter, so that "freshly allocated" is provable,
  * the unbounded C loops are given explicit fuel; the fuel bounds used are
    justified by the termination theorems below.
-/
import Mathlib

set_option maxRecDepth 10000

namespace HidapiLinux

/-! ## Descriptor parser (src/linux/hid.c, get_hid_item_size /
get_hid_report_bytes / get_next_hid_usage) -/

/-- Read a byte of the report-descriptor buffer. The C code reads from a
zero-initialised 4096-byte buffer (`memset` in `get_hid_report_descriptor`),
so positions past the data read are 0. -/
def byteAt (rpt : List Nat) (i : Nat) : Nat := rpt.getD i 0

/-- Embedding of `get_hid_item_size`.  `some (data_len, key_size)` is the
C success return 1 with the two out-parameters; `none` is the C return 0.

Faithful to the C control flow: when the first byte has high nibble 0xF
(a long item) and `pos + 1 < size`, the function returns early with
`key_size = 3`; otherwise the C code *falls through* to the short-item
sizing (the `*data_len = 0; *key_size = 0;` assignments in the truncated
long-item path are overwritten by the switch on `key & 0x3`), so a
truncated long item is sized like a short item.  No path reaches the
final `return 0`. -/
def get_hid_item_size (report_descriptor : List Nat) (pos : Nat) (size : Nat) :
    Option (Nat × Nat) :=
  let key := byteAt report_descriptor pos
  if (key &&& 0xf0) = 0xf0 ∧ pos + 1 < size then
    some (byteAt report_descriptor (pos + 1), 3)
  else
    let size_code := key &&& 0x3
    if size_code = 0 ∨ size_code = 1 ∨ size_code = 2 then
      some (size_code, 1)
    else if size_code = 3 then
      some (4, 1)
    else
      none

/-- Embedding of `get_hid_report_bytes` (little-endian data decoding for
0/1/2/4 data bytes, returning 0 when the data would run past `len`). -/
def get_hid_report_bytes (rpt : List Nat) (len : Nat) (num_bytes : Nat)
    (cur : Nat) : Nat :=
  if len ≤ cur + num_bytes then 0
  else if num_bytes = 0 then 0
  else if num_bytes = 1 then byteAt rpt (cur + 1)
  else if num_bytes = 2 then byteAt rpt (cur + 2) * 256 + byteAt rpt (cur + 1)
  else if num_bytes = 4 then
    byteAt rpt (cur + 4) * 0x01000000 +
    byteAt rpt (cur + 3) * 0x00010000 +
    byteAt rpt (cur + 2) * 0x00000100 +
    byteAt rpt (cur + 1) * 0x00000001
  else 0

/-- Return value of `get_next_hid_usage`: `pair` is the C return 0 (a
usage pair was produced), `finished` is return 1, `malformed` is return -1. -/
inductive UsageRet : Type
  | pair : UsageRet
  | finished : UsageRet
  | malformed : UsageRet
deriving DecidableEq, Repr

/-- The state threaded through repeated `get_next_hid_usage` calls: the
cursor `*pos` and the two out-parameters `*usage_page` / `*usage`
(`unsigned short`), which persist across calls in
`create_device_info_for_device`. -/
structure UsageState : Type where
  pos : Nat
  usage_page : Nat
  usage : Nat
deriving DecidableEq, Repr

/-- The statements after the `while` loop of `get_next_hid_usage`:
emit the pending pair when the call started at position 0 (`initial`)
and a Usage item is still in scope, else report finished. -/
def usageExit (initial : Bool) (pos usage_page usage : Nat)
    (usage_found : Bool) : UsageRet × UsageState :=
  if initial && usage_found then (UsageRet.pair, ⟨pos, usage_page, usage⟩)
  else (UsageRet.finished, ⟨pos, usage_page, usage⟩)

/-- One iteration of the `while (*pos < size)` loop of
`get_next_hid_usage`: either the loop returns (`ret`) or continues with
updated `pos`, `usage_page`, `usage`, `usage_found` (`next`).
The `% 65536` narrowing is the C assignment of the `__u32` result of
`get_hid_report_bytes` to the `unsigned short` out-parameters. -/
inductive UsageStep : Type
  | ret : UsageRet → UsageState → UsageStep
  | next : Nat → Nat → Nat → Bool → UsageStep
deriving DecidableEq, Repr

def usageLoopBody (rpt : List Nat) (size : Nat) (pos usage_page usage : Nat)
    (usage_found : Bool) : UsageStep :=
  match get_hid_item_size rpt pos size with
  | none => UsageStep.ret UsageRet.malformed ⟨pos, usage_page, usage⟩
  | some (data_len, key_size) =>
    let key := byteAt rpt pos
    let key_cmd := key &&& 0xfc
    let pos' := pos + data_len + key_size
    if key_cmd = 0x4 then
      UsageStep.next pos' (get_hid_report_bytes rpt size data_len pos % 65536)
        usage usage_found
    else if key_cmd = 0x8 then
      UsageStep.next pos' usage_page
        (get_hid_report_bytes rpt size data_len pos % 65536) true
    else if key_cmd = 0xa0 then
      if usage_found then UsageStep.ret UsageRet.pair ⟨pos', usage_page, usage⟩
      else UsageStep.next pos' usage_page usage false
    else if key_cmd = 0x80 ∨ key_cmd = 0x90 ∨ key_cmd = 0xb0 ∨ key_cmd = 0xc0 then
      UsageStep.next pos' usage_page usage false
    else
      UsageStep.next pos' usage_page usage usage_found

/-- The `while (*pos < size)` loop of `get_next_hid_usage`, with explicit
fuel.  The fuel-0 case returns the loop-exit result; the termination
theorem below shows that any fuel of at least `size - pos` computes the
true result of the C loop (the cursor strictly increases each iteration). -/
def usageLoop (rpt : List Nat) (size : Nat) (initial : Bool) :
    Nat → Nat → Nat → Nat → Bool → UsageRet × UsageState
  | 0, pos, usage_page, usage, usage_found =>
    usageExit initial pos usage_page usage usage_found
  | fuel + 1, pos, usage_page, usage, usage_found =>
    if pos < size then
      match usageLoopBody rpt size pos usage_page usage usage_found with
      | UsageStep.ret r s => (r, s)
      | UsageStep.next pos' page' u' found' =>
        usageLoop rpt size initial fuel pos' page' u' found'
    else usageExit initial pos usage_page usage usage_found

/-- Embedding of `get_next_hid_usage`.  `initial` is `*pos == 0`;
`usage_found` starts at 0; fuel `size` suffices because each iteration
advances `pos` by `data_len + key_size ≥ 1`. -/
def get_next_hid_usage (rpt : List Nat) (size : Nat) (s : UsageState) :
    UsageRet × UsageState :=
  usageLoop rpt size (s.pos == 0) size s.pos s.usage_page s.usage false

/-- Driving `get_next_hid_usage` from a given state until it stops
returning a pair, collecting the emitted `(usage_page, usage)` pairs in
order.  This is the calling pattern of `create_device_info_for_device`
(one `if` then a `while`, with `pos`/`page`/`usage` persisting).
At most `size` calls can return a pair (each pair-return strictly
advances the cursor, except the initial-position fallback which can only
happen on the first call), so fuel `size + 1` is enough. -/
def collectUsagesFrom (rpt : List Nat) (size : Nat) :
    Nat → UsageState → List (Nat × Nat)
  | 0, _ => []
  | fuel + 1, s =>
    match get_next_hid_usage rpt size s with
    | (UsageRet.pair, s') =>
      (s'.usage_page, s'.usage) :: collectUsagesFrom rpt size fuel s'
    | _ => []

def collectUsages (rpt : List Nat) (size : Nat) : List (Nat × Nat) :=
  collectUsagesFrom rpt size (size + 1) ⟨0, 0, 0⟩

/-! ### Specification-side item scan

An independent characterisation of one `get_next_hid_usage` call, used to
state claim C4: the sequence of `key & 0xfc` item tags reachable from a
position, and the Usage-in-scope discipline of HID 1.11 (a Usage local
item is consumed by every Main item). -/

/-- Main items in the sense of the parser's switch: Collection, Input,
Output, Feature, End Collection. -/
def mainItem (key_cmd : Nat) : Bool :=
  key_cmd = 0xa0 || key_cmd = 0x80 || key_cmd = 0x90 || key_cmd = 0xb0 ||
    key_cmd = 0xc0

/-- How one item tag updates the "a Usage local item is in scope" flag:
a Usage item sets it, any Main item consumes it. -/
def updateUsageFound (usage_found : Bool) (key_cmd : Nat) : Bool :=
  if key_cmd = 0x8 then true
  else if mainItem key_cmd then false
  else usage_found

/-- The `key & 0xfc` tags of the items found walking the descriptor from
`pos`, advancing by `data_len + key_size` each time. -/
def itemCmds (rpt : List Nat) (size : Nat) : Nat → Nat → List Nat
  | 0, _ => []
  | fuel + 1, pos =>
    if pos < size then
      match get_hid_item_size rpt pos size with
      | none => []
      | some (data_len, key_size) =>
        (byteAt rpt pos &&& 0xfc) :: itemCmds rpt size fuel (pos + data_len + key_size)
    else []

/-- Whether a scan over the given item tags, starting with the given
Usage-in-scope flag, reaches a Collection item while a Usage is in scope
(and hence emits a pair). -/
def scanEmits : Bool → List Nat → Bool
  | _, [] => false
  | usage_found, c :: cs =>
    if c = 0xa0 ∧ usage_found = true then true
    else scanEmits (updateUsageFound usage_found c) cs

/-- Whether a Usage item is still in scope (not consumed by a later Main
item) once the scan reaches the end of the item tags. -/
def scanPending : Bool → List Nat → Bool
  | usage_found, [] => usage_found
  | usage_found, c :: cs => scanPending (updateUsageFound usage_found c) cs

/-! ## C strings and scanf/strtol models

C strings are `List Char`.  `sscanf(value, "%x:%hx:%hx", ...)` and
`strtol(str, NULL, 16)` are libc routines (not part of this repository);
they are modelled here by their documented semantics: a hex conversion
skips leading white space, accepts an optional sign and an optional
`0x`/`0X` prefix, and consumes at least one hexadecimal digit. -/

def isSpaceChar (c : Char) : Bool :=
  c = ' ' || c = '\t' || c = '\n' || c = '\r' || c = '\x0b' || c = '\x0c'

def isHexDigitChar (c : Char) : Bool :=
  ('0' ≤ c && c ≤ '9') || ('a' ≤ c && c ≤ 'f') || ('A' ≤ c && c ≤ 'F')

def hexVal (c : Char) : Nat :=
  if '0' ≤ c && c ≤ '9' then c.toNat - '0'.toNat
  else if 'a' ≤ c && c ≤ 'f' then c.toNat - 'a'.toNat + 10
  else if 'A' ≤ c && c ≤ 'F' then c.toNat - 'A'.toNat + 10
  else 0

/-- Consume a maximal run of hexadecimal digits, accumulating the value. -/
def takeHexDigits : List Char → Nat → Nat × List Char
  | [], acc => (acc, [])
  | c :: cs, acc =>
    if isHexDigitChar c then takeHexDigits cs (acc * 16 + hexVal c)
    else (acc, c :: cs)

/-- A `%x`-style hex conversion: skip white space, optional single sign,
optional `0x`/`0X` prefix (only when followed by a hex digit), then at
least one hex digit.  Returns the (sign-applied) value and the rest. -/
def scanHex (s : List Char) : Option (Int × List Char) :=
  let s1 := s.dropWhile isSpaceChar
  let sign : Int × List Char :=
    match s1 with
    | '-' :: rest => (-1, rest)
    | '+' :: rest => (1, rest)
    | rest => (1, rest)
  let body : List Char :=
    match sign.2 with
    | '0' :: 'x' :: c :: rest =>
      if isHexDigitChar c then c :: rest else '0' :: 'x' :: c :: rest
    | '0' :: 'X' :: c :: rest =>
      if isHexDigitChar c then c :: rest else '0' :: 'X' :: c :: rest
    | rest => rest
  match body with
  | c :: rest =>
    if isHexDigitChar c then
      let r := takeHexDigits rest (hexVal c)
      some (sign.1 * Int.ofNat r.1, r.2)
    else none
  | [] => none

/-- `sscanf(value, "%x:%hx:%hx", &bus_type, &vendor_id, &product_id)`
succeeding with return value 3: three hex conversions separated by
literal colons.  `bus_type` is `unsigned` (stored mod 2^32), the ids are
`unsigned short` (stored mod 2^16). -/
def sscanf_hid_id (value : List Char) : Option (Nat × Nat × Nat) :=
  match scanHex value with
  | none => none
  | some (bus, rest1) =>
    match rest1 with
    | ':' :: rest2 =>
      match scanHex rest2 with
      | none => none
      | some (vid, rest3) =>
        match rest3 with
        | ':' :: rest4 =>
          match scanHex rest4 with
          | none => none
          | some (pid, _) =>
            some ((bus % 4294967296).toNat, (vid % 65536).toNat,
              (pid % 65536).toNat)
        | _ => none
    | _ => none

/-- One whole `sscanf(value, "%x:%hx:%hx", &bus_type, &vendor_id,
&product_id)` call with C's assignment semantics: each conversion stores
its value through its out-parameter as soon as it succeeds, even when a
later directive fails, and `ret` counts the successful conversions.  A
field left `none` was not assigned by this call. -/
structure ScanfHidId : Type where
  ret : Nat
  bus : Option Nat
  vid : Option Nat
  pid : Option Nat
deriving DecidableEq, Repr

def sscanf_hid_id_call (value : List Char) : ScanfHidId :=
  match scanHex value with
  | none => ⟨0, none, none, none⟩
  | some (bus, rest1) =>
    match rest1 with
    | ':' :: rest2 =>
      match scanHex rest2 with
      | none => ⟨1, some (bus % 4294967296).toNat, none, none⟩
      | some (vid, rest3) =>
        match rest3 with
        | ':' :: rest4 =>
          match scanHex rest4 with
          | none => ⟨2, some (bus % 4294967296).toNat,
              some (vid % 65536).toNat, none⟩
          | some (pid, _) =>
            ⟨3, some (bus % 4294967296).toNat, some (vid % 65536).toNat,
              some (pid % 65536).toNat⟩
        | _ => ⟨2, some (bus % 4294967296).toNat,
            some (vid % 65536).toNat, none⟩
    | _ => ⟨1, some (bus % 4294967296).toNat, none, none⟩

/-- `strtol(str, NULL, 16)` as used for `bcdDevice` / `bInterfaceNumber`:
0 when no digits can be consumed. -/
def strtol16 (s : List Char) : Int :=
  match scanHex s with
  | some (v, _) => v
  | none => 0

/-! ## Uevent parsing (parse_uevent_info / parse_hid_vid_pid_from_uevent)

Both C functions copy the text into a 1024-byte buffer (truncating to
1023 bytes plus the terminator) and walk it with `strtok_r(_, "\n", _)`,
which skips empty tokens; each line is split at its first `=`. -/

/-- The non-empty `\n`-separated tokens of a text, as produced by
`strtok_r`. -/
def strtokLines (s : List Char) : List (List Char) :=
  (s.splitOn '\n').filter (fun l => l ≠ [])

/-- `strchr(line, '=')`: split a line into the part before the first `=`
and the part after it; `none` when the line has no `=`. -/
def splitKeyValue (line : List Char) : Option (List Char × List Char) :=
  match line.splitOn '=' with
  | [] => none
  | [_] => none
  | key :: v1 :: vrest =>
    some (key, List.intercalate ['='] (v1 :: vrest))

def keyHID_ID : List Char := ['H', 'I', 'D', '_', 'I', 'D']
def keyHID_NAME : List Char := ['H', 'I', 'D', '_', 'N', 'A', 'M', 'E']
def keyHID_UNIQ : List Char := ['H', 'I', 'D', '_', 'U', 'N', 'I', 'Q']

/-- Store a conversion result over the previous contents of an
out-parameter cell: a field the `sscanf` call did not assign keeps its
old value. -/
def storeField (new old : Option Nat) : Option Nat :=
  match new with
  | some v => some v
  | none => old

/-- Accumulator of `parse_uevent_info`: the values stored so far through
the out-parameters (`none` = never assigned) together with the
`found_id` flag.  `found_name`/`found_serial` are set exactly when the
corresponding `strdup` result was stored, so they are carried by the
option-ness of `name`/`serial`; `found_id` is a separate flag because a
later `HID_ID` line whose `sscanf` converts only its leading fields
overwrites `bus`/`vid` without touching the flag. -/
structure UeventAcc : Type where
  bus : Option Nat
  vid : Option Nat
  pid : Option Nat
  found_id : Bool
  name : Option (List Char)
  serial : Option (List Char)
deriving DecidableEq, Repr

def parseUeventLine (acc : UeventAcc) (line : List Char) : UeventAcc :=
  match splitKeyValue line with
  | none => acc
  | some (key, value) =>
    if key = keyHID_ID then
      ⟨storeField (sscanf_hid_id_call value).bus acc.bus,
       storeField (sscanf_hid_id_call value).vid acc.vid,
       storeField (sscanf_hid_id_call value).pid acc.pid,
       ((sscanf_hid_id_call value).ret == 3) || acc.found_id,
       acc.name, acc.serial⟩
    else if key = keyHID_NAME then { acc with name := some value }
    else if key = keyHID_UNIQ then { acc with serial := some value }
    else acc

/-- The successfully parsed result of `parse_uevent_info`. -/
structure UeventInfo : Type where
  bus_type : Nat
  vendor_id : Nat
  product_id : Nat
  serial_number : List Char
  product_name : List Char
deriving DecidableEq, Repr

/-- Embedding of `parse_uevent_info`: truncate to the 1023 bytes that fit
the stack buffer, scan all lines, succeed exactly on
`found_id && found_name && found_serial`.  Whenever `found_id` is set,
some line fully converted all three id fields, so all three cells are
assigned (`parse_uevent_info_isSome` goes through this invariant) and
the fall-through arm of the match is unreachable. -/
def parse_uevent_info (uevent : List Char) : Option UeventInfo :=
  let tmp := uevent.take 1023
  let acc := (strtokLines tmp).foldl parseUeventLine
    ⟨none, none, none, false, none, none⟩
  if acc.found_id then
    match acc.bus, acc.vid, acc.pid, acc.name, acc.serial with
    | some bus, some vid, some pid, some name, some serial =>
      some ⟨bus, vid, pid, serial, name⟩
    | _, _, _, _, _ => none
  else none

/-- Embedding of `parse_hid_vid_pid_from_uevent`: same line walk, but it
returns as soon as one `HID_ID` line fully converts (first full match
wins).  Fields stored by a partially converting line are never
observable here: the caller (`hid_enumerate`) checks the return value,
and on success all three out-parameters were assigned by the returning
call itself. -/
def parse_hid_vid_pid_from_uevent (uevent : List Char) :
    Option (Nat × Nat × Nat) :=
  let tmp := uevent.take 1023
  (strtokLines tmp).foldl
    (fun acc line =>
      match acc with
      | some t => some t
      | none =>
        match splitKeyValue line with
        | none => none
        | some (key, value) =>
          if key = keyHID_ID then sscanf_hid_id value else none)
    none

/-! ## Allocated strings

`strdup`/`wcsdup`/`utf8_to_wchar_t` return freshly allocated copies.  An
allocated string is modelled as its contents tagged with an allocation
identity drawn from a counter threaded through the computation; two
strings with different identities are independently owned.  The
locale-driven UTF-8 to wide conversion of `utf8_to_wchar_t` is modelled
as the identity on contents. -/

structure WStr : Type where
  id : Nat
  chars : List Char
deriving DecidableEq, Repr

def alloc (s : List Char) (n : Nat) : WStr × Nat := (⟨n, s⟩, n + 1)

/-- `utf8_to_wchar_t` / `strdup` lifted to a nullable argument: NULL in,
NULL out (no allocation); otherwise a fresh copy. -/
def allocOpt (s : Option (List Char)) (n : Nat) : Option WStr × Nat :=
  match s with
  | none => (none, n)
  | some s => ((alloc s n).1, (alloc s n).2)

/-! ## Device-info builder (create_device_info_for_device) -/

/-- Kernel bus-type constants from `linux/input.h`. -/
def BUS_USB : Nat := 0x03
def BUS_BLUETOOTH : Nat := 0x05
def BUS_I2C : Nat := 0x18
def BUS_SPI : Nat := 0x1C

/-- `hid_bus_type` constants from the public hidapi header. -/
def HID_API_BUS_UNKNOWN : Nat := 0x00
def HID_API_BUS_USB : Nat := 0x01
def HID_API_BUS_BLUETOOTH : Nat := 0x02
def HID_API_BUS_I2C : Nat := 0x03
def HID_API_BUS_SPI : Nat := 0x04

/-- `struct hid_device_info` (one enumeration record; the `next` pointer
is the list structure).  `release_number` is `unsigned short`;
`interface_number` is a signed `int`. -/
structure DeviceInfo : Type where
  path : Option WStr
  vendor_id : Nat
  product_id : Nat
  serial_number : Option WStr
  release_number : Nat
  interface_number : Int
  manufacturer_string : Option WStr
  product_string : Option WStr
  usage_page : Nat
  usage : Nat
  bus_type : Nat
deriving DecidableEq, Repr

/-- The sysfs attributes of the `usb_device` ancestor that the builder
reads (each may be absent). -/
structure UsbDeviceNode : Type where
  manufacturer : Option (List Char)
  product : Option (List Char)
  bcdDevice : Option (List Char)
deriving DecidableEq, Repr

/-- The sysfs attribute of the `usb_interface` ancestor. -/
structure UsbInterfaceNode : Type where
  bInterfaceNumber : Option (List Char)
deriving DecidableEq, Repr

/-- A raw hidraw udev node, as observed through the udev calls the
builder makes: its devnode path, the `uevent` attribute text of its
"hid"-subsystem parent (`none` when no such parent exists), its USB
ancestors, and the bytes of `<sysfs_path>/device/report_descriptor`
(`none` when the open/read fails). -/
structure UdevDevice : Type where
  devnode : Option (List Char)
  hid_parent_uevent : Option (List Char)
  usb_device_parent : Option UsbDeviceNode
  usb_interface_parent : Option UsbInterfaceNode
  report_descriptor : Option (List Nat)
deriving DecidableEq, Repr

/-- The body of the additional-usage-pair loop of
`create_device_info_for_device`: a fresh record deep-copying `path` from
`dev_path` (strdup), vid/pid from the parsed values, and the remaining
string fields from the previous record (wcsdup), with its own usage
pair.  Allocation order follows the C assignments. -/
def copyRecord (dev_path : Option (List Char)) (dev_vid dev_pid : Nat)
    (prev : DeviceInfo) (page usage : Nat) (n : Nat) : DeviceInfo × Nat :=
  let p := allocOpt dev_path n
  let s := allocOpt (prev.serial_number.map WStr.chars) p.2
  let m := allocOpt (prev.manufacturer_string.map WStr.chars) s.2
  let q := allocOpt (prev.product_string.map WStr.chars) m.2
  (⟨p.1, dev_vid, dev_pid, s.1, prev.release_number, prev.interface_number,
    m.1, q.1, page, usage, prev.bus_type⟩, q.2)

/-- The `while (!get_next_hid_usage(..))` loop: one extra record per
additional usage pair, each copied from the previous record. -/
def mkExtraRecords (dev_path : Option (List Char)) (dev_vid dev_pid : Nat) :
    DeviceInfo → List (Nat × Nat) → Nat → List DeviceInfo × Nat
  | _, [], n => ([], n)
  | prev, (page, usage) :: rest, n =>
    let r := copyRecord dev_path dev_vid dev_pid prev page usage n
    let rs := mkExtraRecords dev_path dev_vid dev_pid r.1 rest r.2
    (r.1 :: rs.1, rs.2)

/-- The bus-specific part of filling the seed record: manufacturer and
product strings, release number, interface number and `bus_type`.
For USB without a reachable `usb_device` ancestor (virtual/uhid devices)
the C code `break`s before assigning `bus_type`, leaving the calloc
value `HID_API_BUS_UNKNOWN`. -/
def fillBusSpecific (d : UdevDevice) (info : UeventInfo) (n : Nat) :
    (Option WStr × Option WStr × Nat × Int × Nat) × Nat :=
  if info.bus_type = BUS_USB then
    match d.usb_device_parent with
    | none =>
      let m := alloc [] n
      let q := alloc info.product_name m.2
      ((some m.1, some q.1, 0, -1, HID_API_BUS_UNKNOWN), q.2)
    | some usb =>
      let m := allocOpt usb.manufacturer n
      let q := allocOpt usb.product m.2
      let release : Nat :=
        match usb.bcdDevice with
        | some str => ((strtol16 str) % 65536).toNat
        | none => 0
      let iface : Int :=
        match d.usb_interface_parent with
        | some intf =>
          match intf.bInterfaceNumber with
          | some str => strtol16 str
          | none => -1
        | none => -1
      ((m.1, q.1, release, iface, HID_API_BUS_USB), q.2)
  else
    let m := alloc [] n
    let q := alloc info.product_name m.2
    ((some m.1, some q.1, 0, -1,
      if info.bus_type = BUS_BLUETOOTH then HID_API_BUS_BLUETOOTH
      else if info.bus_type = BUS_I2C then HID_API_BUS_I2C
      else HID_API_BUS_SPI), q.2)

/-- The seed record of `create_device_info_for_device`: the calloc'd
record filled with `path` (strdup of the devnode), the parsed vid/pid,
the wide-decoded serial, and the bus-specific fields; `usage_page` and
`usage` keep their calloc value 0 until the first usage pair is
found. -/
def seedRecord (d : UdevDevice) (info : UeventInfo) (n : Nat) : DeviceInfo :=
  ⟨(allocOpt d.devnode n).1, info.vendor_id, info.product_id,
    (allocOpt (some info.serial_number) (allocOpt d.devnode n).2).1,
    (fillBusSpecific d info
      (allocOpt (some info.serial_number) (allocOpt d.devnode n).2).2).1.2.2.1,
    (fillBusSpecific d info
      (allocOpt (some info.serial_number)
        (allocOpt d.devnode n).2).2).1.2.2.2.1,
    (fillBusSpecific d info
      (allocOpt (some info.serial_number) (allocOpt d.devnode n).2).2).1.1,
    (fillBusSpecific d info
      (allocOpt (some info.serial_number) (allocOpt d.devnode n).2).2).1.2.1,
    0, 0,
    (fillBusSpecific d info
      (allocOpt (some info.serial_number)
        (allocOpt d.devnode n).2).2).1.2.2.2.2⟩

/-- The allocation counter after the seed record's four string fields
(path, serial, manufacturer, product) have been allocated. -/
def seedCounter (d : UdevDevice) (info : UeventInfo) (n : Nat) : Nat :=
  (fillBusSpecific d info
    (allocOpt (some info.serial_number) (allocOpt d.devnode n).2).2).2

/-- The seed record with the first usage pair written into it. -/
def fillSeed (d : UdevDevice) (info : UeventInfo) (n page usage : Nat) :
    DeviceInfo :=
  { seedRecord d info n with usage_page := page, usage := usage }

/-- The non-usage content of the seed record, computed directly from the
node and its parsed uevent (no allocation counter): this is the value
`metaOf` takes on every record of the node. -/
def seedMeta (d : UdevDevice) (info : UeventInfo) :
    Option (List Char) × Nat × Nat × Option (List Char) × Nat × Int ×
      Option (List Char) × Option (List Char) × Nat :=
  if info.bus_type = BUS_USB then
    match d.usb_device_parent with
    | none =>
      (d.devnode, info.vendor_id, info.product_id, some info.serial_number,
        0, -1, some [], some info.product_name, HID_API_BUS_UNKNOWN)
    | some usb =>
      (d.devnode, info.vendor_id, info.product_id, some info.serial_number,
        (match usb.bcdDevice with
         | some str => ((strtol16 str) % 65536).toNat
         | none => 0),
        (match d.usb_interface_parent with
         | some intf =>
           (match intf.bInterfaceNumber with
            | some str => strtol16 str
            | none => -1)
         | none => -1),
        usb.manufacturer, usb.product, HID_API_BUS_USB)
  else
    (d.devnode, info.vendor_id, info.product_id, some info.serial_number,
      0, -1, some [], some info.product_name,
      if info.bus_type = BUS_BLUETOOTH then HID_API_BUS_BLUETOOTH
      else if info.bus_type = BUS_I2C then HID_API_BUS_I2C
      else HID_API_BUS_SPI)

/-- Embedding of `create_device_info_for_device`.  `none` models the
paths that return without producing a record (no hid parent, uevent
parse failure, unhandled bus type); calloc is modelled as always
succeeding.  The usage pairs driven out of the descriptor are exactly
`collectUsages` (the first pair is written into the seed record, each
further pair gets a copied record). -/
def create_device_info_for_device (d : UdevDevice) (n : Nat) :
    Option (List DeviceInfo) × Nat :=
  match d.hid_parent_uevent with
  | none => (none, n)
  | some uevent =>
    match parse_uevent_info uevent with
    | none => (none, n)
    | some info =>
      if info.bus_type = BUS_BLUETOOTH ∨ info.bus_type = BUS_I2C ∨
          info.bus_type = BUS_USB ∨ info.bus_type = BUS_SPI then
        match d.report_descriptor with
        | none => (some [seedRecord d info n], seedCounter d info n)
        | some rpt =>
          match collectUsages rpt rpt.length with
          | [] => (some [seedRecord d info n], seedCounter d info n)
          | pu :: rest =>
            (some (fillSeed d info n pu.1 pu.2 ::
              (mkExtraRecords d.devnode info.vendor_id info.product_id
                (fillSeed d info n pu.1 pu.2) rest
                (seedCounter d info n)).1),
             (mkExtraRecords d.devnode info.vendor_id info.product_id
                (fillSeed d info n pu.1 pu.2) rest
                (seedCounter d info n)).2)
      else (none, n)

/-! ## Enumerator (hid_enumerate, hid_internal_match_device_id) -/

def hid_internal_match_device_id (vendor_id product_id
    expected_vendor_id expected_product_id : Nat) : Bool :=
  (expected_vendor_id = 0 || vendor_id = expected_vendor_id) &&
    (expected_product_id = 0 || product_id = expected_product_id)

/-- Embedding of the per-node pre-filter of `hid_enumerate`: when either
filter slot is non-zero, `<sysfs_path>/device/uevent` (the uevent of the
node's hid parent) is read and parsed by
`parse_hid_vid_pid_from_uevent`; nodes that fail to parse or do not
match both filter slots are skipped. -/
def enumerateKeepsNode (d : UdevDevice) (vendor_id product_id : Nat) : Bool :=
  if vendor_id ≠ 0 ∨ product_id ≠ 0 then
    match d.hid_parent_uevent with
    | none => false
    | some uevent =>
      match parse_hid_vid_pid_from_uevent uevent with
      | none => false
      | some (_, dev_vid, dev_pid) =>
        if vendor_id ≠ 0 ∧ vendor_id ≠ dev_vid then false
        else if product_id ≠ 0 ∧ product_id ≠ dev_pid then false
        else true
  else true

/-- Embedding of `hid_enumerate` over the hidraw nodes reported by udev:
pre-filter, build, concatenate the per-node sublists in order. -/
def hid_enumerate (nodes : List UdevDevice) (vendor_id product_id : Nat)
    (n : Nat) : List DeviceInfo × Nat :=
  match nodes with
  | [] => ([], n)
  | d :: rest =>
    if enumerateKeepsNode d vendor_id product_id then
      match create_device_info_for_device d n with
      | (some rs, n') =>
        let t := hid_enumerate rest vendor_id product_id n'
        (rs ++ t.1, t.2)
      | (none, n') => hid_enumerate rest vendor_id product_id n'
    else hid_enumerate rest vendor_id product_id n

/-! ## Hotplug engine -/

/-- A user callback: `fn(handle, info, event, user_data)`; non-zero
return requests auto-deregistration. -/
def CallbackFn : Type := Int → DeviceInfo → Nat → Nat → Int

/-- `struct hid_hotplug_callback` (the `next` pointer is the list). -/
structure HotplugCallback : Type where
  handle : Int
  vendor_id : Nat
  product_id : Nat
  events : Nat
  user_data : Nat
  callback : CallbackFn

/-- `struct hid_hotplug_context`: the udev handle and monitor are
modelled by armed flags, the monitor fd and worker thread by their
observable state. -/
structure HotplugContext : Type where
  udev_armed : Bool
  mon_armed : Bool
  monitor_fd : Int
  thread_started : Bool
  next_handle : Int
  hotplug_cbs : List HotplugCallback
  devs : List DeviceInfo

/-- The initial (Idle) context from the static initialiser. -/
def initialHotplugContext : HotplugContext :=
  ⟨false, false, -1, false, 1, [], []⟩

/-- The `while` condition of `hotplug_thread`: the worker keeps running
as long as `hid_hotplug_context.monitor_fd > 0`. -/
def hotplugThreadKeepsRunning (ctx : HotplugContext) : Bool :=
  0 < ctx.monitor_fd

/-- Embedding of `hid_internal_hotplug_cleanup`: when no callback is
left, free the `devs` list and unreference monitor and udev context.
Faithful to the C: `monitor_fd` is NOT touched and the worker thread is
not joined. -/
def hid_internal_hotplug_cleanup (ctx : HotplugContext) : HotplugContext :=
  if ctx.hotplug_cbs.isEmpty then
    { ctx with devs := [], mon_armed := false, udev_armed := false }
  else ctx

/-- Unlink the first callback with the given handle, if any. -/
def removeFirstCallback (handle : Int) :
    List HotplugCallback → Option (List HotplugCallback)
  | [] => none
  | cb :: rest =>
    if cb.handle = handle then some rest
    else (removeFirstCallback handle rest).map (fun l => cb :: l)

/-- Embedding of `hid_hotplug_deregister_callback` (the C calls the
cleanup helper under the `hid_internal_cleanup_hotplugs` spelling; the
only such helper defined is `hid_internal_hotplug_cleanup`). -/
def hid_hotplug_deregister_callback (callback_handle : Int)
    (ctx : HotplugContext) : Int × HotplugContext :=
  if ctx.hotplug_cbs.isEmpty then (-1, ctx)
  else
    match removeFirstCallback callback_handle ctx.hotplug_cbs with
    | some l =>
      (0, hid_internal_hotplug_cleanup { ctx with hotplug_cbs := l })
    | none => (-1, hid_internal_hotplug_cleanup ctx)

/-- Embedding of `hid_hotplug_register_callback`.  `nodes` is the hidraw
node list seen by the initial `hid_enumerate(0, 0)`, `udev_ok` whether
`udev_new` succeeds, `fd` the monitor fd handed out by
`udev_monitor_get_fd`; `n` is the allocation counter.  Result:
(return value, `*callback_handle` out-parameter, new context, counter).
Faithful to the C: the function ends with `return -1;` on every path,
including complete success. -/
def hid_hotplug_register_callback (nodes : List UdevDevice)
    (vendor_id product_id : Nat) (events flags : Nat)
    (callback : Option CallbackFn) (user_data : Nat) (udev_ok : Bool)
    (fd : Int) (ctx : HotplugContext) (n : Nat) :
    Int × Option Int × HotplugContext × Nat :=
  if events = 0 ∨ ¬(events &&& 3 = events) ∨ ¬(flags &&& 1 = flags) ∨
      callback.isNone then
    (-1, none, ctx, n)
  else
    match callback with
    | none => (-1, none, ctx, n)
    | some fn =>
      let handle := ctx.next_handle
      let bumped := ctx.next_handle + 1
      let nh := if bumped < 0 then 1 else bumped
      let cb : HotplugCallback :=
        ⟨handle, vendor_id, product_id, events, user_data, fn⟩
      if ¬ ctx.hotplug_cbs.isEmpty then
        (-1, some handle,
          { ctx with
            next_handle := nh,
            hotplug_cbs := ctx.hotplug_cbs ++ [cb] }, n)
      else if ¬ udev_ok then
        (-1, some handle, { ctx with next_handle := nh }, n)
      else
        let devs := hid_enumerate nodes 0 0 n
        (-1, some handle,
          { ctx with
            next_handle := nh, udev_armed := true, mon_armed := true,
            monitor_fd := fd, devs := devs.1, hotplug_cbs := [cb],
            thread_started := true }, devs.2)

/-- Embedding of `hid_internal_invoke_callbacks`: walk the callback list
in order; invoke each callback whose event mask and id filter match; a
non-zero return splices the callback out (without recursing into
deregistration) and the walk continues.  Also returns the dispatch log:
the `(handle, returned value)` of every invocation, in order. -/
def hid_internal_invoke_callbacks (info : DeviceInfo) (event : Nat) :
    List HotplugCallback → List HotplugCallback × List (Int × Int)
  | [] => ([], [])
  | cb :: rest =>
    if cb.events &&& event ≠ 0 ∧
        hid_internal_match_device_id info.vendor_id info.product_id
          cb.vendor_id cb.product_id then
      if cb.callback cb.handle info event cb.user_data ≠ 0 then
        ((hid_internal_invoke_callbacks info event rest).1,
          (cb.handle, cb.callback cb.handle info event cb.user_data) ::
            (hid_internal_invoke_callbacks info event rest).2)
      else
        (cb :: (hid_internal_invoke_callbacks info event rest).1,
          (cb.handle, cb.callback cb.handle info event cb.user_data) ::
            (hid_internal_invoke_callbacks info event rest).2)
    else
      (cb :: (hid_internal_invoke_callbacks info event rest).1,
        (hid_internal_invoke_callbacks info event rest).2)

/-- A sequence of dispatches (one per kernel event), each running over
the callback list left by the previous one; returns the per-event
dispatch logs. -/
def dispatchEvents : List HotplugCallback → List (DeviceInfo × Nat) →
    List (List (Int × Int))
  | _, [] => []
  | cbs, (info, event) :: rest =>
    let t := hid_internal_invoke_callbacks info event cbs
    t.2 :: dispatchEvents t.1 rest

/-! ## Observation helpers -/

/-- The non-usage content of a record: everything but `(usage_page,
usage)`, with allocated strings taken up to contents (allocation
identity ignored). -/
def metaOf (r : DeviceInfo) :
    Option (List Char) × Nat × Nat × Option (List Char) × Nat × Int ×
      Option (List Char) × Option (List Char) × Nat :=
  (r.path.map WStr.chars, r.vendor_id, r.product_id,
    r.serial_number.map WStr.chars, r.release_number, r.interface_number,
    r.manufacturer_string.map WStr.chars, r.product_string.map WStr.chars,
    r.bus_type)

/-- A record up to allocation identities. -/
def projRecord (r : DeviceInfo) :
    (Option (List Char) × Nat × Nat × Option (List Char) × Nat × Int ×
      Option (List Char) × Option (List Char) × Nat) × Nat × Nat :=
  (metaOf r, r.usage_page, r.usage)

/-- The allocation identities of the string fields of one record, in
field order. -/
def recordIds (r : DeviceInfo) : List Nat :=
  (r.path.map WStr.id).toList ++ (r.serial_number.map WStr.id).toList ++
    (r.manufacturer_string.map WStr.id).toList ++
    (r.product_string.map WStr.id).toList

/-- All allocation identities of the string fields of a record list. -/
def allocIds (rs : List DeviceInfo) : List Nat :=
  (rs.map recordIds).flatten

/-- All elements of `l` lie in the allocation-id interval `[a, b)`. -/
def idsIn (l : List Nat) (a b : Nat) : Prop := ∀ i ∈ l, a ≤ i ∧ i < b

/-! ## Specification-side uevent observations (for claim C6) -/

/-- "The text contains a line `HID_ID=<value>` whose value parses as
`%x:%hx:%hx`" for one line. -/
def idLineOk (l : List Char) : Bool :=
  match splitKeyValue l with
  | none => false
  | some (key, value) =>
    if key = keyHID_ID then (sscanf_hid_id value).isSome else false

/-- "The line is `<k>=<value>`" for a given key. -/
def keyLineOk (k : List Char) (l : List Char) : Bool :=
  match splitKeyValue l with
  | none => false
  | some (key, _) => if key = k then true else false

/-- The right-hand side of claim C6: the text contains a parseable
`HID_ID` line, an `HID_NAME` line and an `HID_UNIQ` line. -/
def ueventClaimRhs (t : List Char) : Bool :=
  (strtokLines t).any idLineOk &&
    (strtokLines t).any (keyLineOk keyHID_NAME) &&
    (strtokLines t).any (keyLineOk keyHID_UNIQ)

/-- The scenario-S5 uevent text. -/
def s5Uevent : List Char :=
  "HID_ID=0003:000005AC:00008242\nHID_NAME=Keyboard\nHID_UNIQ=abc\n".toList

def s5NoId : List Char := "HID_NAME=Keyboard\nHID_UNIQ=abc\n".toList

def s5NoName : List Char :=
  "HID_ID=0003:000005AC:00008242\nHID_UNIQ=abc\n".toList

def s5NoUniq : List Char :=
  "HID_ID=0003:000005AC:00008242\nHID_NAME=Keyboard\n".toList

/-- A uevent text longer than the 1023 bytes that fit the parser's stack
buffer, whose `HID_ID` line lies entirely past the truncation point. -/
def longUevent : List Char :=
  "HID_NAME=a\nHID_UNIQ=b\n".toList ++ List.replicate 1005 'x' ++
    "\nHID_ID=3:1:2\n".toList

/-- A concrete raw device used as a witness: Bluetooth bus, vid 1,
pid 2, serial "u", name "n", with the two-pair scenario-S2 report
descriptor. -/
def c2desc : List Nat :=
  [0x05, 0x01, 0x09, 0x06, 0xA1, 0x01, 0x05, 0x0C, 0x09, 0x01, 0xA1, 0x02,
   0xC0, 0xC0]

def c2node : UdevDevice :=
  ⟨some ['p'],
   some ("HID_ID=5:1:2\nHID_NAME=n\nHID_UNIQ=u".toList),
   none, none, some c2desc⟩

def c2records : List DeviceInfo :=
  [⟨some ⟨0, ['p']⟩, 1, 2, some ⟨1, ['u']⟩, 0, -1, some ⟨2, []⟩,
    some ⟨3, ['n']⟩, 1, 6, HID_API_BUS_BLUETOOTH⟩,
   ⟨some ⟨4, ['p']⟩, 1, 2, some ⟨5, ['u']⟩, 0, -1, some ⟨6, []⟩,
    some ⟨7, ['n']⟩, 12, 1, HID_API_BUS_BLUETOOTH⟩]

/-- A node whose hid parent's uevent carries two different fully
converting `HID_ID` lines: the enumeration pre-filter reads the first,
the device-info builder's out-parameters keep the values stored by the
last. -/
def c5node : UdevDevice :=
  ⟨some ['q'],
   some ("HID_ID=0003:0001:0002\nHID_ID=0003:0003:0004\nHID_NAME=n\nHID_UNIQ=u".toList),
   none, none, none⟩

/-- Concrete hotplug fixtures used in witnesses and counterexamples. -/
def c8devinfo : DeviceInfo := ⟨none, 1, 2, none, 0, -1, none, none, 0, 0, 0⟩

/-- An armed hotplug context: monitor fd 5, worker started, one
registered callback with handle 1. -/
def armedCtx : HotplugContext :=
  ⟨true, true, 5, true, 2, [⟨1, 0, 0, 3, 0, fun _ _ _ _ => 0⟩], [c8devinfo]⟩

def c9info : DeviceInfo := ⟨none, 0, 0, none, 0, -1, none, none, 0, 0, 0⟩

/-- Two wildcard callbacks: handle 1 requests auto-deregistration
(returns 1), handle 2 stays (returns 0). -/
def c9cbs : List HotplugCallback :=
  [⟨1, 0, 0, 3, 0, fun _ _ _ _ => 1⟩, ⟨2, 0, 0, 3, 0, fun _ _ _ _ => 0⟩]

def c9evs : List (DeviceInfo × Nat) := [(c9info, 1), (c9info, 1)]

/-! # Helper lemmas -/

theorem keyNAME_ne_ID : keyHID_NAME ≠ keyHID_ID := by decide
theorem keyUNIQ_ne_ID : keyHID_UNIQ ≠ keyHID_ID := by decide
theorem keyUNIQ_ne_NAME : keyHID_UNIQ ≠ keyHID_NAME := by decide
theorem keyID_ne_NAME : keyHID_ID ≠ keyHID_NAME := by decide
theorem keyID_ne_UNIQ : keyHID_ID ≠ keyHID_UNIQ := by decide
theorem keyNAME_ne_UNIQ : keyHID_NAME ≠ keyHID_UNIQ := by decide

theorem storeField_isSome (new old : Option Nat) :
    (storeField new old).isSome = (new.isSome || old.isSome) := by
  cases new <;> simp [storeField]

/-- The `sscanf` call returns 3 exactly when the value fully converts as
`%x:%hx:%hx`, and then the assigned fields are the converted values. -/
theorem sscanf_call_full (v : List Char) :
    (sscanf_hid_id_call v).ret = 3 →
      ∃ b vi pi, sscanf_hid_id_call v = ⟨3, some b, some vi, some pi⟩ ∧
        sscanf_hid_id v = some (b, vi, pi) := by
  unfold sscanf_hid_id_call sscanf_hid_id
  repeat' split
  all_goals intro h
  all_goals first
    | (exact ⟨_, _, _, rfl, rfl⟩)
    | simp at h

/-- The `sscanf` call returns 3 exactly when the full parse succeeds. -/
theorem sscanf_call_ret3 (v : List Char) :
    ((sscanf_hid_id_call v).ret == 3) = (sscanf_hid_id v).isSome := by
  unfold sscanf_hid_id_call sscanf_hid_id
  repeat' split
  all_goals rfl

theorem parseUeventLine_id (acc : UeventAcc) (l : List Char) :
    (parseUeventLine acc l).found_id = (acc.found_id || idLineOk l) := by
  unfold parseUeventLine idLineOk
  cases hkv : splitKeyValue l with
  | none => simp
  | some kv =>
    obtain ⟨k, v⟩ := kv
    by_cases hid : k = keyHID_ID
    · simp only [hid, if_pos]
      rw [sscanf_call_ret3, Bool.or_comm]
    · by_cases hn : k = keyHID_NAME
      · simp [hid, hn, keyNAME_ne_ID, keyUNIQ_ne_ID, keyUNIQ_ne_NAME,
          keyID_ne_NAME, keyID_ne_UNIQ, keyNAME_ne_UNIQ]
      · by_cases hu : k = keyHID_UNIQ <;>
          simp [hid, hn, hu, keyNAME_ne_ID, keyUNIQ_ne_ID, keyUNIQ_ne_NAME,
            keyID_ne_NAME, keyID_ne_UNIQ, keyNAME_ne_UNIQ]

theorem parseUeventLine_name (acc : UeventAcc) (l : List Char) :
    ((parseUeventLine acc l).name).isSome =
      (acc.name.isSome || keyLineOk keyHID_NAME l) := by
  unfold parseUeventLine keyLineOk
  cases hkv : splitKeyValue l with
  | none => simp
  | some kv =>
    obtain ⟨k, v⟩ := kv
    by_cases hid : k = keyHID_ID
    · simp [hid, keyNAME_ne_ID, keyUNIQ_ne_ID, keyUNIQ_ne_NAME,
        keyID_ne_NAME, keyID_ne_UNIQ, keyNAME_ne_UNIQ]
    · by_cases hn : k = keyHID_NAME
      · simp [hid, hn, keyNAME_ne_ID, keyUNIQ_ne_ID, keyUNIQ_ne_NAME,
          keyID_ne_NAME, keyID_ne_UNIQ, keyNAME_ne_UNIQ]
      · by_cases hu : k = keyHID_UNIQ <;>
          simp [hid, hn, hu, keyNAME_ne_ID, keyUNIQ_ne_ID, keyUNIQ_ne_NAME,
            keyID_ne_NAME, keyID_ne_UNIQ, keyNAME_ne_UNIQ]

theorem parseUeventLine_serial (acc : UeventAcc) (l : List Char) :
    ((parseUeventLine acc l).serial).isSome =
      (acc.serial.isSome || keyLineOk keyHID_UNIQ l) := by
  unfold parseUeventLine keyLineOk
  cases hkv : splitKeyValue l with
  | none => simp
  | some kv =>
    obtain ⟨k, v⟩ := kv
    by_cases hid : k = keyHID_ID
    · simp [hid, keyNAME_ne_ID, keyUNIQ_ne_ID, keyUNIQ_ne_NAME,
        keyID_ne_NAME, keyID_ne_UNIQ, keyNAME_ne_UNIQ]
    · by_cases hn : k = keyHID_NAME
      · simp [hid, hn, keyNAME_ne_ID, keyUNIQ_ne_ID, keyUNIQ_ne_NAME,
          keyID_ne_NAME, keyID_ne_UNIQ, keyNAME_ne_UNIQ]
      · by_cases hu : k = keyHID_UNIQ <;>
          simp [hid, hn, hu, keyNAME_ne_ID, keyUNIQ_ne_ID, keyUNIQ_ne_NAME,
            keyID_ne_NAME, keyID_ne_UNIQ, keyNAME_ne_UNIQ]

/-- A line preserves the invariant "whenever `found_id` is set, all
three id cells have been assigned": a fully converting `HID_ID` line
assigns all three, and no line ever unassigns a cell. -/
theorem parseUeventLine_cells (acc : UeventAcc) (l : List Char)
    (h : acc.found_id = true →
      acc.bus.isSome = true ∧ acc.vid.isSome = true ∧
        acc.pid.isSome = true) :
    (parseUeventLine acc l).found_id = true →
      ((parseUeventLine acc l).bus).isSome = true ∧
      ((parseUeventLine acc l).vid).isSome = true ∧
      ((parseUeventLine acc l).pid).isSome = true := by
  unfold parseUeventLine
  cases hkv : splitKeyValue l with
  | none => exact h
  | some kv =>
    obtain ⟨k, v⟩ := kv
    by_cases hid : k = keyHID_ID
    · simp only [hid, if_pos]
      intro hf
      rw [Bool.or_eq_true] at hf
      rcases hf with h3 | hacc
      · obtain ⟨b, vi, pi, hcall, _⟩ :=
          sscanf_call_full v (by simpa using h3)
        rw [hcall]
        simp [storeField_isSome]
      · obtain ⟨hb, hv, hp⟩ := h hacc
        simp [storeField_isSome, hb, hv, hp]
    · by_cases hn : k = keyHID_NAME
      · simpa [hid, hn, keyNAME_ne_ID, keyUNIQ_ne_ID, keyUNIQ_ne_NAME,
          keyID_ne_NAME, keyID_ne_UNIQ, keyNAME_ne_UNIQ] using h
      · by_cases hu : k = keyHID_UNIQ <;>
          simpa [hid, hn, hu, keyNAME_ne_ID, keyUNIQ_ne_ID, keyUNIQ_ne_NAME,
            keyID_ne_NAME, keyID_ne_UNIQ, keyNAME_ne_UNIQ] using h

theorem foldl_uevent_id (lines : List (List Char)) :
    ∀ acc : UeventAcc, (lines.foldl parseUeventLine acc).found_id =
      (acc.found_id || lines.any idLineOk) := by
  induction lines with
  | nil => intro acc; simp
  | cons l rest ih =>
    intro acc
    simp only [List.foldl_cons, List.any_cons, ih, parseUeventLine_id,
      Bool.or_assoc]

theorem foldl_uevent_name (lines : List (List Char)) :
    ∀ acc : UeventAcc, ((lines.foldl parseUeventLine acc).name).isSome =
      (acc.name.isSome || lines.any (keyLineOk keyHID_NAME)) := by
  induction lines with
  | nil => intro acc; simp
  | cons l rest ih =>
    intro acc
    simp only [List.foldl_cons, List.any_cons, ih, parseUeventLine_name,
      Bool.or_assoc]

theorem foldl_uevent_serial (lines : List (List Char)) :
    ∀ acc : UeventAcc, ((lines.foldl parseUeventLine acc).serial).isSome =
      (acc.serial.isSome || lines.any (keyLineOk keyHID_UNIQ)) := by
  induction lines with
  | nil => intro acc; simp
  | cons l rest ih =>
    intro acc
    simp only [List.foldl_cons, List.any_cons, ih, parseUeventLine_serial,
      Bool.or_assoc]

theorem foldl_uevent_cells (lines : List (List Char)) :
    ∀ acc : UeventAcc,
      (acc.found_id = true →
        acc.bus.isSome = true ∧ acc.vid.isSome = true ∧
          acc.pid.isSome = true) →
      (lines.foldl parseUeventLine acc).found_id = true →
        ((lines.foldl parseUeventLine acc).bus).isSome = true ∧
        ((lines.foldl parseUeventLine acc).vid).isSome = true ∧
        ((lines.foldl parseUeventLine acc).pid).isSome = true := by
  induction lines with
  | nil => intro acc h; exact h
  | cons l rest ih =>
    intro acc h
    simp only [List.foldl_cons]
    exact ih (parseUeventLine acc l) (parseUeventLine_cells acc l h)

/-- `parse_uevent_info` succeeds exactly when all three keys are found
in the (truncated) text. -/
theorem parse_uevent_info_isSome (t : List Char) :
    (parse_uevent_info t).isSome = ueventClaimRhs (t.take 1023) := by
  have hid := foldl_uevent_id (strtokLines (t.take 1023))
    ⟨none, none, none, false, none, none⟩
  have hna := foldl_uevent_name (strtokLines (t.take 1023))
    ⟨none, none, none, false, none, none⟩
  have hse := foldl_uevent_serial (strtokLines (t.take 1023))
    ⟨none, none, none, false, none, none⟩
  have hcells := foldl_uevent_cells (strtokLines (t.take 1023))
    ⟨none, none, none, false, none, none⟩ (by simp)
  simp only [Option.isSome_none, Bool.false_or] at hid hna hse
  unfold parse_uevent_info ueventClaimRhs
  rw [← hid, ← hna, ← hse]
  cases hf : (List.foldl parseUeventLine ⟨none, none, none, false, none, none⟩
      (strtokLines (t.take 1023))).found_id with
  | false => simp [hf]
  | true =>
    obtain ⟨hb, hv, hp⟩ := hcells hf
    rcases h1 : (List.foldl parseUeventLine
        ⟨none, none, none, false, none, none⟩
        (strtokLines (t.take 1023))).bus with _ | b
    · rw [h1] at hb; simp at hb
    · rcases h2 : (List.foldl parseUeventLine
          ⟨none, none, none, false, none, none⟩
          (strtokLines (t.take 1023))).vid with _ | vi
      · rw [h2] at hv; simp at hv
      · rcases h3 : (List.foldl parseUeventLine
            ⟨none, none, none, false, none, none⟩
            (strtokLines (t.take 1023))).pid with _ | pi
        · rw [h3] at hp; simp at hp
        · rcases h4 : (List.foldl parseUeventLine
              ⟨none, none, none, false, none, none⟩
              (strtokLines (t.take 1023))).name with _ | nm <;>
            rcases h5 : (List.foldl parseUeventLine
              ⟨none, none, none, false, none, none⟩
              (strtokLines (t.take 1023))).serial with _ | sr <;>
            simp [hf, h1, h2, h3, h4, h5]

/-- The partial-assignment semantics at work: on a uevent whose second
`HID_ID` line converts only its leading two fields, the builder parse
ends with `bus_type`/`vendor_id` from the second line and `product_id`
from the first, while the pre-filter parse returns the first fully
converting line; a uevent whose only `HID_ID` line converts partially
fails to parse (`found_id` is set only by a full conversion). -/
theorem uevent_overwrite_semantics :
    parse_uevent_info
        ("HID_ID=0003:0002:0003\nHID_ID=0005:0005:zz\nHID_NAME=n\nHID_UNIQ=u".toList) =
      some ⟨5, 5, 3, ['u'], ['n']⟩ ∧
    parse_hid_vid_pid_from_uevent
        ("HID_ID=0003:0002:0003\nHID_ID=0005:0005:zz\nHID_NAME=n\nHID_UNIQ=u".toList) =
      some (3, 2, 3) ∧
    parse_uevent_info
        ("HID_ID=0003:0002:zz\nHID_NAME=n\nHID_UNIQ=u".toList) = none := by
  refine ⟨by decide, by decide, by decide⟩

/-- `get_hid_item_size` succeeds on every input: the truncated-long-item
path falls through to the short-item sizing, and the short-item switch
covers all four size codes.  On success `key_size` is 1 or 3 and the
cursor advance `data_len + key_size` is at least 1. -/
theorem get_hid_item_size_spec (rpt : List Nat) (pos size : Nat) :
    ∃ d k, get_hid_item_size rpt pos size = some (d, k) ∧ (k = 1 ∨ k = 3) ∧
      1 ≤ d + k := by
  unfold get_hid_item_size
  by_cases h : (byteAt rpt pos &&& 0xf0) = 0xf0 ∧ pos + 1 < size
  · exact ⟨byteAt rpt (pos + 1), 3, by simp [h], Or.inr rfl, by omega⟩
  · have hle : byteAt rpt pos &&& 0x3 ≤ 3 := Nat.and_le_right
    have hc : byteAt rpt pos &&& 0x3 = 0 ∨ byteAt rpt pos &&& 0x3 = 1 ∨
        byteAt rpt pos &&& 0x3 = 2 ∨ byteAt rpt pos &&& 0x3 = 3 := by omega
    rcases hc with h0 | h1 | h2 | h3
    · exact ⟨0, 1, by simp [h, h0], Or.inl rfl, by omega⟩
    · exact ⟨1, 1, by simp [h, h1], Or.inl rfl, by omega⟩
    · exact ⟨2, 1, by simp [h, h2], Or.inl rfl, by omega⟩
    · exact ⟨4, 1, by simp [h, h3], Or.inl rfl, by omega⟩

/-- Case analysis of one loop iteration: the body either returns a pair
(exactly when the item is a Collection with a Usage in scope) or
continues at `pos + data_len + key_size` with the Usage-in-scope flag
updated per `updateUsageFound`; it never returns `malformed`. -/
theorem usageLoopBody_spec (rpt : List Nat) (size pos pg u : Nat) (f : Bool) :
    ∃ d k, get_hid_item_size rpt pos size = some (d, k) ∧ 1 ≤ d + k ∧
      ((byteAt rpt pos &&& 0xfc = 0xa0 ∧ f = true ∧
        usageLoopBody rpt size pos pg u f =
          UsageStep.ret UsageRet.pair ⟨pos + d + k, pg, u⟩) ∨
       (¬(byteAt rpt pos &&& 0xfc = 0xa0 ∧ f = true) ∧ ∃ pg' u',
        usageLoopBody rpt size pos pg u f =
          UsageStep.next (pos + d + k) pg' u'
            (updateUsageFound f (byteAt rpt pos &&& 0xfc)))) := by
  obtain ⟨d, k, hsome, _, hdk⟩ := get_hid_item_size_spec rpt pos size
  refine ⟨d, k, hsome, hdk, ?_⟩
  unfold usageLoopBody
  rw [hsome]
  by_cases h4 : byteAt rpt pos &&& 0xfc = 0x4
  · exact Or.inr ⟨by simp [h4],
      get_hid_report_bytes rpt size d pos % 65536, u,
      by simp [h4, updateUsageFound, mainItem]⟩
  · by_cases h8 : byteAt rpt pos &&& 0xfc = 0x8
    · exact Or.inr ⟨by simp [h8],
        pg, get_hid_report_bytes rpt size d pos % 65536,
        by simp [h4, h8, updateUsageFound, mainItem]⟩
    · by_cases ha : byteAt rpt pos &&& 0xfc = 0xa0
      · cases hf : f with
        | true =>
          exact Or.inl ⟨ha, rfl, by simp [h4, h8, ha]⟩
        | false =>
          refine Or.inr ⟨by simp [hf], pg, u, ?_⟩
          simp [h4, h8, ha, updateUsageFound, mainItem]
      · by_cases hm : byteAt rpt pos &&& 0xfc = 0x80 ∨
            byteAt rpt pos &&& 0xfc = 0x90 ∨ byteAt rpt pos &&& 0xfc = 0xb0 ∨
            byteAt rpt pos &&& 0xfc = 0xc0
        · refine Or.inr ⟨by simp [ha], pg, u, ?_⟩
          rcases hm with h | h | h | h <;>
            simp [h4, h8, ha, h, updateUsageFound, mainItem]
        · refine Or.inr ⟨by simp [ha], pg, u, ?_⟩
          push_neg at hm
          simp [h4, h8, ha, hm, updateUsageFound, mainItem]

/-- The loop result is always `pair` or `finished`: no input can produce
the `malformed` return of the C code (return -1), because
`get_hid_item_size` never fails. -/
theorem usageLoop_pair_or_finished (rpt : List Nat) (size : Nat)
    (initial : Bool) :
    ∀ fuel pos pg u f, (usageLoop rpt size initial fuel pos pg u f).1 =
      UsageRet.pair ∨
      (usageLoop rpt size initial fuel pos pg u f).1 = UsageRet.finished := by
  intro fuel
  induction fuel with
  | zero =>
    intro pos pg u f
    unfold usageLoop usageExit
    split <;> simp
  | succ fuel ih =>
    intro pos pg u f
    by_cases hpos : pos < size
    · obtain ⟨d, k, _, _, hcases⟩ := usageLoopBody_spec rpt size pos pg u f
      rcases hcases with ⟨_, _, hbody⟩ | ⟨_, pg', u', hbody⟩
      · simp [usageLoop, hpos, hbody]
      · simp only [usageLoop, if_pos hpos, hbody]
        exact ih _ _ _ _
    · unfold usageLoop usageExit
      simp only [if_neg hpos]
      split <;> simp

/-- Fuel irrelevance for the usage loop: any fuel of at least
`size - pos` computes the same result, because each iteration advances
the cursor by at least one byte. -/
theorem usageLoop_fuel_irrelevant (rpt : List Nat) (size : Nat)
    (initial : Bool) :
    ∀ fuel pos pg u f, size - pos ≤ fuel →
      usageLoop rpt size initial fuel pos pg u f =
        usageLoop rpt size initial (size - pos) pos pg u f := by
  intro fuel
  induction fuel using Nat.strong_induction_on with
  | _ fuel ih =>
    intro pos pg u f hle
    by_cases hpos : pos < size
    · cases fuel with
      | zero => exact absurd hle (by omega)
      | succ m =>
        have hsp : size - pos = (size - pos - 1) + 1 := by omega
        rw [hsp]
        obtain ⟨d, k, _, hdk, hcases⟩ := usageLoopBody_spec rpt size pos pg u f
        rcases hcases with ⟨_, _, hbody⟩ | ⟨_, pg', u', hbody⟩
        · simp [usageLoop, hpos, hbody]
        · simp only [usageLoop, if_pos hpos, hbody]
          rw [ih m (by omega) (pos + d + k) pg' u' _ (by omega),
            ih (size - pos - 1) (by omega) (pos + d + k) pg' u' _ (by omega)]
    · have h0 : size - pos = 0 := by omega
      rw [h0]
      cases fuel with
      | zero => rfl
      | succ m => simp [usageLoop, hpos]

/-- A call whose state already sits at or past the end of a non-empty
descriptor reports finished and leaves the state unchanged. -/
theorem get_next_hid_usage_at_end (rpt : List Nat) (size : Nat)
    (s : UsageState) (hsz : 0 < size) (hpos : size ≤ s.pos) :
    get_next_hid_usage rpt size s = (UsageRet.finished, s) := by
  unfold get_next_hid_usage
  cases hsize : size with
  | zero => omega
  | succ m =>
    have hlt : ¬ s.pos < Nat.succ m := by omega
    have hne : (s.pos == 0) = false := by
      have : s.pos ≠ 0 := by omega
      simp [this]
    simp [usageLoop, hlt, usageExit, hne]

/-- Running the loop over item tags that never emit a pair: the call
returns `pair` exactly when it started at position 0 with a Usage still
in scope at the end, and the final cursor sits at or past the end. -/
theorem usageLoop_no_emit (rpt : List Nat) (size : Nat) (initial : Bool) :
    ∀ fuel pos pg u f, size ≤ fuel + pos →
      scanEmits f (itemCmds rpt size fuel pos) = false →
      ∃ s' : UsageState, size ≤ s'.pos ∧
        usageLoop rpt size initial fuel pos pg u f =
          ((if initial && scanPending f (itemCmds rpt size fuel pos) then
              UsageRet.pair else UsageRet.finished), s') := by
  intro fuel
  induction fuel with
  | zero =>
    intro pos pg u f hsz _
    refine ⟨⟨pos, pg, u⟩, by show size ≤ pos; omega, ?_⟩
    unfold usageLoop usageExit
    simp only [itemCmds, scanPending]
    split <;> simp_all
  | succ fuel ih =>
    intro pos pg u f hsz hem
    by_cases hpos : pos < size
    · obtain ⟨d, k, hsome, hdk, hcases⟩ := usageLoopBody_spec rpt size pos pg u f
      have hcmds : itemCmds rpt size (fuel + 1) pos =
          (byteAt rpt pos &&& 0xfc) :: itemCmds rpt size fuel (pos + d + k) := by
        simp [itemCmds, hpos, hsome]
      rcases hcases with ⟨hcmd, hf, _⟩ | ⟨hne, pg', u', hnext⟩
      · rw [hcmds] at hem
        simp [scanEmits, hcmd, hf] at hem
      · rw [hcmds] at hem
        have hem' : scanEmits (updateUsageFound f (byteAt rpt pos &&& 0xfc))
            (itemCmds rpt size fuel (pos + d + k)) = false := by
          rw [scanEmits, if_neg hne] at hem
          exact hem
        obtain ⟨s', hs', hloop⟩ :=
          ih (pos + d + k) pg' u' (updateUsageFound f (byteAt rpt pos &&& 0xfc))
            (by omega) hem'
        refine ⟨s', hs', ?_⟩
        simp only [usageLoop, if_pos hpos, hnext]
        rw [hloop, hcmds, scanPending]
    · refine ⟨⟨pos, pg, u⟩, by show size ≤ pos; omega, ?_⟩
      have hnil : itemCmds rpt size (fuel + 1) pos = [] := by
        simp [itemCmds, hpos]
      rw [hnil]
      unfold usageLoop usageExit
      simp only [if_neg hpos, scanPending]
      split <;> simp_all

/-! ### Allocation-freshness lemmas (for claim C2) -/

theorem idsIn_append {l1 l2 : List Nat} {a b c : Nat} (h1 : idsIn l1 a b)
    (h2 : idsIn l2 b c) (hd1 : l1.Nodup) (hd2 : l2.Nodup) (hab : a ≤ b)
    (hbc : b ≤ c) : idsIn (l1 ++ l2) a c ∧ (l1 ++ l2).Nodup := by
  constructor
  · intro i hi
    rcases List.mem_append.mp hi with h | h
    · obtain ⟨ha, hb⟩ := h1 i h
      omega
    · obtain ⟨ha, hb⟩ := h2 i h
      omega
  · refine hd1.append hd2 ?_
    intro i hi1 hi2
    obtain ⟨_, hb⟩ := h1 i hi1
    obtain ⟨hb', _⟩ := h2 i hi2
    omega

theorem allocOpt_chars (s : Option (List Char)) (n : Nat) :
    (allocOpt s n).1.map WStr.chars = s := by
  cases s <;> rfl

theorem allocOpt_spec (s : Option (List Char)) (n : Nat) :
    n ≤ (allocOpt s n).2 ∧
    idsIn ((allocOpt s n).1.map WStr.id).toList n (allocOpt s n).2 ∧
    (((allocOpt s n).1.map WStr.id).toList).Nodup := by
  cases s with
  | none =>
    refine ⟨le_refl n, ?_, ?_⟩
    · intro i hi
      simp [allocOpt] at hi
    · simp [allocOpt]
  | some v =>
    refine ⟨?_, ?_, ?_⟩
    · show n ≤ n + 1
      omega
    · intro i hi
      have hin : i = n := by simpa [allocOpt, alloc] using hi
      show n ≤ i ∧ i < n + 1
      omega
    · show List.Nodup [n]
      simp

theorem copyRecord_spec (dp : Option (List Char)) (dv dpid : Nat)
    (prev : DeviceInfo) (pg u n : Nat) :
    (copyRecord dp dv dpid prev pg u n).1.path.map WStr.chars = dp ∧
    (copyRecord dp dv dpid prev pg u n).1.vendor_id = dv ∧
    (copyRecord dp dv dpid prev pg u n).1.product_id = dpid ∧
    metaOf (copyRecord dp dv dpid prev pg u n).1 =
      (dp, dv, dpid, prev.serial_number.map WStr.chars, prev.release_number,
        prev.interface_number, prev.manufacturer_string.map WStr.chars,
        prev.product_string.map WStr.chars, prev.bus_type) ∧
    (copyRecord dp dv dpid prev pg u n).1.usage_page = pg ∧
    (copyRecord dp dv dpid prev pg u n).1.usage = u ∧
    n ≤ (copyRecord dp dv dpid prev pg u n).2 ∧
    idsIn (recordIds (copyRecord dp dv dpid prev pg u n).1) n
      (copyRecord dp dv dpid prev pg u n).2 ∧
    (recordIds (copyRecord dp dv dpid prev pg u n).1).Nodup := by
  obtain ⟨le1, in1, nd1⟩ := allocOpt_spec dp n
  obtain ⟨le2, in2, nd2⟩ :=
    allocOpt_spec (prev.serial_number.map WStr.chars) (allocOpt dp n).2
  obtain ⟨le3, in3, nd3⟩ :=
    allocOpt_spec (prev.manufacturer_string.map WStr.chars)
      (allocOpt (prev.serial_number.map WStr.chars) (allocOpt dp n).2).2
  obtain ⟨le4, in4, nd4⟩ :=
    allocOpt_spec (prev.product_string.map WStr.chars)
      (allocOpt (prev.manufacturer_string.map WStr.chars)
        (allocOpt (prev.serial_number.map WStr.chars) (allocOpt dp n).2).2).2
  obtain ⟨in12, nd12⟩ := idsIn_append in1 in2 nd1 nd2 le1 le2
  obtain ⟨in123, nd123⟩ := idsIn_append in12 in3 nd12 nd3 (le_trans le1 le2) le3
  obtain ⟨in1234, nd1234⟩ := idsIn_append in123 in4 nd123 nd4
    (le_trans (le_trans le1 le2) le3) le4
  refine ⟨allocOpt_chars dp n, rfl, rfl, ?_, rfl, rfl,
    le_trans (le_trans (le_trans le1 le2) le3) le4, in1234, nd1234⟩
  simp only [copyRecord, metaOf, allocOpt_chars]

/-- The combined allocation facts for the bus-specific fill:
manufacturer and product strings are allocated in `[n, n')` with
distinct ids. -/
theorem fillBusSpecific_spec (d : UdevDevice) (info : UeventInfo) (n : Nat) :
    n ≤ (fillBusSpecific d info n).2 ∧
    idsIn (((fillBusSpecific d info n).1.1.map WStr.id).toList ++
        ((fillBusSpecific d info n).1.2.1.map WStr.id).toList) n
      (fillBusSpecific d info n).2 ∧
    ((((fillBusSpecific d info n).1.1.map WStr.id).toList ++
        ((fillBusSpecific d info n).1.2.1.map WStr.id).toList)).Nodup := by
  unfold fillBusSpecific
  by_cases hb : info.bus_type = BUS_USB
  · rw [if_pos hb]
    cases husb : d.usb_device_parent with
    | none =>
      refine ⟨?_, ?_, ?_⟩
      · show n ≤ n + 1 + 1
        omega
      · show idsIn ([n] ++ [n + 1]) n (n + 1 + 1)
        intro i hi
        simp at hi
        omega
      · show ([n] ++ [n + 1]).Nodup
        have hne : n ≠ n + 1 := by omega
        simp [hne]
    | some usb =>
      obtain ⟨le1, in1, nd1⟩ := allocOpt_spec usb.manufacturer n
      obtain ⟨le2, in2, nd2⟩ :=
        allocOpt_spec usb.product (allocOpt usb.manufacturer n).2
      obtain ⟨in12, nd12⟩ := idsIn_append in1 in2 nd1 nd2 le1 le2
      exact ⟨le_trans le1 le2, in12, nd12⟩
  · rw [if_neg hb]
    refine ⟨?_, ?_, ?_⟩
    · show n ≤ n + 1 + 1
      omega
    · show idsIn ([n] ++ [n + 1]) n (n + 1 + 1)
      intro i hi
      simp at hi
      omega
    · show ([n] ++ [n + 1]).Nodup
      have hne : n ≠ n + 1 := by omega
      simp [hne]

/-- The spec of the additional-record loop: one record per pair, each
carrying its pair, with the non-usage content of the previous record and
freshly allocated string fields. -/
theorem mkExtraRecords_spec (dp : Option (List Char)) (dv dpid : Nat) :
    ∀ (pairs : List (Nat × Nat)) (prev : DeviceInfo) (n : Nat),
      prev.path.map WStr.chars = dp → prev.vendor_id = dv →
      prev.product_id = dpid →
      (mkExtraRecords dp dv dpid prev pairs n).1.length = pairs.length ∧
      (∀ r ∈ (mkExtraRecords dp dv dpid prev pairs n).1,
        metaOf r = metaOf prev) ∧
      n ≤ (mkExtraRecords dp dv dpid prev pairs n).2 ∧
      idsIn (allocIds (mkExtraRecords dp dv dpid prev pairs n).1) n
        (mkExtraRecords dp dv dpid prev pairs n).2 ∧
      (allocIds (mkExtraRecords dp dv dpid prev pairs n).1).Nodup ∧
      ((mkExtraRecords dp dv dpid prev pairs n).1.map
        (fun r => (r.usage_page, r.usage)) = pairs) := by
  intro pairs
  induction pairs with
  | nil =>
    intro prev n _ _ _
    refine ⟨rfl, by intro r hr; simp [mkExtraRecords] at hr, le_refl n, ?_, ?_, rfl⟩
    · intro i hi
      simp [mkExtraRecords, allocIds] at hi
    · simp [mkExtraRecords, allocIds]
  | cons p rest ih =>
    obtain ⟨pg, u⟩ := p
    intro prev n hpath hvid hpid
    obtain ⟨cpath, cvid, cpid, cmeta, cpg, cu, cle, cin, cnd⟩ :=
      copyRecord_spec dp dv dpid prev pg u n
    have hmeta : metaOf (copyRecord dp dv dpid prev pg u n).1 = metaOf prev := by
      rw [cmeta, ← hpath, ← hvid, ← hpid]
      simp [metaOf]
    obtain ⟨ihlen, ihmeta, ihle, ihin, ihnd, ihpairs⟩ :=
      ih (copyRecord dp dv dpid prev pg u n).1
        (copyRecord dp dv dpid prev pg u n).2 cpath cvid cpid
    have hunf : mkExtraRecords dp dv dpid prev ((pg, u) :: rest) n =
        ((copyRecord dp dv dpid prev pg u n).1 ::
          (mkExtraRecords dp dv dpid (copyRecord dp dv dpid prev pg u n).1
            rest (copyRecord dp dv dpid prev pg u n).2).1,
         (mkExtraRecords dp dv dpid (copyRecord dp dv dpid prev pg u n).1
            rest (copyRecord dp dv dpid prev pg u n).2).2) := rfl
    rw [hunf]
    have hall : allocIds ((copyRecord dp dv dpid prev pg u n).1 ::
        (mkExtraRecords dp dv dpid (copyRecord dp dv dpid prev pg u n).1
          rest (copyRecord dp dv dpid prev pg u n).2).1) =
        recordIds (copyRecord dp dv dpid prev pg u n).1 ++
          allocIds (mkExtraRecords dp dv dpid
            (copyRecord dp dv dpid prev pg u n).1 rest
            (copyRecord dp dv dpid prev pg u n).2).1 := by
      simp [allocIds]
    obtain ⟨inc, ndc⟩ := idsIn_append cin ihin cnd ihnd cle ihle
    refine ⟨by simp [ihlen], ?_, le_trans cle ihle, ?_, ?_, ?_⟩
    · intro r hr
      rcases List.mem_cons.mp hr with rfl | hr
      · exact hmeta
      · rw [ihmeta r hr, hmeta]
    · rw [hall]
      exact inc
    · rw [hall]
      exact ndc
    · simp [cpg, cu, ihpairs]

theorem metaOf_vendor {r1 r2 : DeviceInfo} (h : metaOf r1 = metaOf r2) :
    r1.vendor_id = r2.vendor_id := congrArg (fun t => t.2.1) h

theorem metaOf_product {r1 r2 : DeviceInfo} (h : metaOf r1 = metaOf r2) :
    r1.product_id = r2.product_id := congrArg (fun t => t.2.2.1) h

theorem seedCounter_le (d : UdevDevice) (info : UeventInfo) (n : Nat) :
    n ≤ seedCounter d info n := by
  obtain ⟨lep, _, _⟩ := allocOpt_spec d.devnode n
  obtain ⟨les, _, _⟩ :=
    allocOpt_spec (some info.serial_number) (allocOpt d.devnode n).2
  obtain ⟨leb, _, _⟩ := fillBusSpecific_spec d info
    (allocOpt (some info.serial_number) (allocOpt d.devnode n).2).2
  exact le_trans (le_trans lep les) leb

theorem seedRecord_ids (d : UdevDevice) (info : UeventInfo) (n : Nat) :
    idsIn (recordIds (seedRecord d info n)) n (seedCounter d info n) ∧
    (recordIds (seedRecord d info n)).Nodup := by
  obtain ⟨lep, inp, ndp⟩ := allocOpt_spec d.devnode n
  obtain ⟨les, ins, nds⟩ :=
    allocOpt_spec (some info.serial_number) (allocOpt d.devnode n).2
  obtain ⟨leb, inb, ndb⟩ := fillBusSpecific_spec d info
    (allocOpt (some info.serial_number) (allocOpt d.devnode n).2).2
  obtain ⟨inps, ndps⟩ := idsIn_append inp ins ndp nds lep les
  obtain ⟨inseed, ndseed⟩ := idsIn_append inps inb ndps ndb
    (le_trans lep les) leb
  constructor
  · intro i hi
    exact inseed i
      (by simpa [recordIds, seedRecord, List.append_assoc] using hi)
  · simpa [recordIds, seedRecord, List.append_assoc] using ndseed

theorem fillSeed_recordIds (d : UdevDevice) (info : UeventInfo)
    (n pg u : Nat) :
    recordIds (fillSeed d info n pg u) = recordIds (seedRecord d info n) := rfl

theorem fillSeed_path (d : UdevDevice) (info : UeventInfo) (n pg u : Nat) :
    (fillSeed d info n pg u).path.map WStr.chars = d.devnode :=
  allocOpt_chars d.devnode n

theorem seedRecord_meta (d : UdevDevice) (info : UeventInfo) (n : Nat) :
    metaOf (seedRecord d info n) = seedMeta d info := by
  unfold metaOf seedRecord seedMeta fillBusSpecific
  by_cases hb : info.bus_type = BUS_USB
  · cases husb : d.usb_device_parent <;>
      simp [hb, husb, allocOpt_chars, alloc]
  · simp [hb, allocOpt_chars, alloc]

theorem fillSeed_meta (d : UdevDevice) (info : UeventInfo) (n pg u : Nat) :
    metaOf (fillSeed d info n pg u) = seedMeta d info :=
  seedRecord_meta d info n

theorem seedMeta_vendor (d : UdevDevice) (info : UeventInfo) :
    (seedMeta d info).2.1 = info.vendor_id := by
  unfold seedMeta
  split
  · split <;> rfl
  · rfl

theorem seedMeta_product (d : UdevDevice) (info : UeventInfo) :
    (seedMeta d info).2.2.1 = info.product_id := by
  unfold seedMeta
  split
  · split <;> rfl
  · rfl

/-- The collected facts about a successful `create_device_info_for_device`
call: all records share their non-usage content, vendor/product ids come
from the parsed uevent of the hid parent, all string-field allocation
ids are fresh (drawn from `[n, n')`) and pairwise distinct, and the
usage pairs of the records are exactly the pairs the descriptor yields
(a single `(0, 0)` record when there is no pair or no descriptor). -/
theorem create_some_spec (d : UdevDevice) (n : Nat) (rs : List DeviceInfo)
    (n' : Nat) (h : create_device_info_for_device d n = (some rs, n')) :
    (∀ r1 ∈ rs, ∀ r2 ∈ rs, metaOf r1 = metaOf r2) ∧
    n ≤ n' ∧ idsIn (allocIds rs) n n' ∧ (allocIds rs).Nodup ∧
    (∃ uevent info, d.hid_parent_uevent = some uevent ∧
      parse_uevent_info uevent = some info ∧
      ∀ r ∈ rs, metaOf r = seedMeta d info) ∧
    (d.report_descriptor = none →
      rs.map (fun r => (r.usage_page, r.usage)) = [(0, 0)]) ∧
    (∀ rpt, d.report_descriptor = some rpt →
      rs.map (fun r => (r.usage_page, r.usage)) =
        (if collectUsages rpt rpt.length = [] then [(0, 0)]
         else collectUsages rpt rpt.length)) := by
  unfold create_device_info_for_device at h
  split at h
  · simp at h
  · rename_i uevent hue
    split at h
    · simp at h
    · rename_i info hinfo
      split at h
      case isFalse => simp at h
      case isTrue hbus =>
      obtain ⟨inseed, ndseed⟩ := seedRecord_ids d info n
      split at h
      · rename_i hdesc
        simp only [Prod.mk.injEq, Option.some.injEq] at h
        obtain ⟨hrs, hn⟩ := h
        subst hrs
        subst hn
        refine ⟨?_, seedCounter_le d info n, ?_, ?_, ?_, ?_, ?_⟩
        · intro r1 hr1 r2 hr2
          simp at hr1 hr2
          rw [hr1, hr2]
        · intro i hi
          exact inseed i (by simpa [allocIds] using hi)
        · simpa [allocIds] using ndseed
        · refine ⟨uevent, info, hue, hinfo, ?_⟩
          intro r hr
          simp at hr
          rw [hr]
          exact seedRecord_meta d info n
        · intro _
          rfl
        · intro rpt hrpt
          rw [hdesc] at hrpt
          simp at hrpt
      · rename_i rpt hdesc
        split at h
        · rename_i hp
          simp only [Prod.mk.injEq, Option.some.injEq] at h
          obtain ⟨hrs, hn⟩ := h
          subst hrs
          subst hn
          refine ⟨?_, seedCounter_le d info n, ?_, ?_, ?_, ?_, ?_⟩
          · intro r1 hr1 r2 hr2
            simp at hr1 hr2
            rw [hr1, hr2]
          · intro i hi
            exact inseed i (by simpa [allocIds] using hi)
          · simpa [allocIds] using ndseed
          · refine ⟨uevent, info, hue, hinfo, ?_⟩
            intro r hr
            simp at hr
            rw [hr]
            exact seedRecord_meta d info n
          · intro hnone
            rw [hdesc] at hnone
            simp at hnone
          · intro rpt' hrpt
            rw [hdesc] at hrpt
            simp only [Option.some.injEq] at hrpt
            subst hrpt
            rw [hp]
            rfl
        · rename_i pu rest hp
          simp only [Prod.mk.injEq, Option.some.injEq] at h
          obtain ⟨hrs, hn⟩ := h
          subst hrs
          subst hn
          obtain ⟨xlen, xmeta, xle, xin, xnd, xpairs⟩ :=
            mkExtraRecords_spec d.devnode info.vendor_id info.product_id rest
              (fillSeed d info n pu.1 pu.2) (seedCounter d info n)
              (fillSeed_path d info n pu.1 pu.2) rfl rfl
          have hall : ∀ r ∈ (fillSeed d info n pu.1 pu.2 ::
              (mkExtraRecords d.devnode info.vendor_id info.product_id
                (fillSeed d info n pu.1 pu.2) rest (seedCounter d info n)).1),
              metaOf r = metaOf (fillSeed d info n pu.1 pu.2) := by
            intro r hr
            rcases List.mem_cons.mp hr with rfl | hr
            · rfl
            · exact xmeta r hr
          have hallids : allocIds (fillSeed d info n pu.1 pu.2 ::
              (mkExtraRecords d.devnode info.vendor_id info.product_id
                (fillSeed d info n pu.1 pu.2) rest (seedCounter d info n)).1) =
              recordIds (seedRecord d info n) ++
                allocIds (mkExtraRecords d.devnode info.vendor_id
                  info.product_id (fillSeed d info n pu.1 pu.2) rest
                  (seedCounter d info n)).1 := by
            simp [allocIds, fillSeed_recordIds]
          obtain ⟨incomb, ndcomb⟩ := idsIn_append inseed xin ndseed xnd
            (seedCounter_le d info n) xle
          refine ⟨?_, le_trans (seedCounter_le d info n) xle, ?_, ?_, ?_,
            ?_, ?_⟩
          · intro r1 hr1 r2 hr2
            rw [hall r1 hr1, hall r2 hr2]
          · rw [hallids]
            exact incomb
          · rw [hallids]
            exact ndcomb
          · refine ⟨uevent, info, hue, hinfo, ?_⟩
            intro r hr
            rw [hall r hr]
            exact fillSeed_meta d info n pu.1 pu.2
          · intro hnone
            rw [hdesc] at hnone
            simp at hnone
          · intro rpt' hrpt
            rw [hdesc] at hrpt
            simp only [Option.some.injEq] at hrpt
            subst hrpt
            rw [hp, if_neg (by simp)]
            simp only [List.map_cons, xpairs]
            rfl

/-! ### Enumeration lemmas (for claim C5) -/

/-- Whether record creation succeeds does not depend on the allocation
counter. -/
theorem create_fst_isSome (d : UdevDevice) (n m : Nat) :
    (create_device_info_for_device d n).1.isSome =
      (create_device_info_for_device d m).1.isSome := by
  unfold create_device_info_for_device
  split
  · rfl
  · split
    · rfl
    · split
      · split
        · rfl
        · split <;> rfl
      · rfl

/-- The records of a successful creation, up to allocation identities:
one entry per usage pair (or a single `(0, 0)` entry), each carrying the
counter-free `seedMeta` content. -/
theorem create_proj_canon (d : UdevDevice) (n : Nat) (rs : List DeviceInfo)
    (n' : Nat) (h : create_device_info_for_device d n = (some rs, n')) :
    ∃ uevent info, d.hid_parent_uevent = some uevent ∧
      parse_uevent_info uevent = some info ∧
      rs.map projRecord =
        ((match d.report_descriptor with
          | none => [(0, 0)]
          | some rpt =>
            if collectUsages rpt rpt.length = [] then [(0, 0)]
            else collectUsages rpt rpt.length) :
          List (Nat × Nat)).map (fun pu => (seedMeta d info, pu)) := by
  obtain ⟨_, _, _, _, ⟨uevent, info, hue, hinfo, hm⟩, hnone, hsome⟩ :=
    create_some_spec d n rs n' h
  refine ⟨uevent, info, hue, hinfo, ?_⟩
  have h1 : rs.map projRecord =
      rs.map (fun r => (seedMeta d info, (r.usage_page, r.usage))) := by
    refine List.map_congr_left ?_
    intro r hr
    show (metaOf r, r.usage_page, r.usage) = _
    rw [hm r hr]
  have h2 : rs.map (fun r => (seedMeta d info, (r.usage_page, r.usage))) =
      (rs.map (fun r => (r.usage_page, r.usage))).map
        (fun pu => (seedMeta d info, pu)) := by
    rw [List.map_map]
    rfl
  rw [h1, h2]
  cases hdesc : d.report_descriptor with
  | none => rw [hnone hdesc]
  | some rpt => rw [hsome rpt hdesc]

/-- The projected record list of a creation does not depend on the
allocation counter. -/
theorem create_proj_eq (d : UdevDevice) (n m : Nat) :
    (create_device_info_for_device d n).1.map (fun rs => rs.map projRecord) =
      (create_device_info_for_device d m).1.map
        (fun rs => rs.map projRecord) := by
  cases h1 : (create_device_info_for_device d n).1 with
  | none =>
    have hs := create_fst_isSome d n m
    rw [h1] at hs
    cases h2 : (create_device_info_for_device d m).1 with
    | none => rfl
    | some rs2 => rw [h2] at hs; simp at hs
  | some rs1 =>
    cases h2 : (create_device_info_for_device d m).1 with
    | none =>
      have hs := create_fst_isSome d n m
      rw [h1, h2] at hs
      simp at hs
    | some rs2 =>
      have hn1 : create_device_info_for_device d n =
          (some rs1, (create_device_info_for_device d n).2) := by
        rw [← h1]
      have hn2 : create_device_info_for_device d m =
          (some rs2, (create_device_info_for_device d m).2) := by
        rw [← h2]
      obtain ⟨ue1, i1, hue1, hinfo1, hc1⟩ := create_proj_canon d n rs1 _ hn1
      obtain ⟨ue2, i2, hue2, hinfo2, hc2⟩ := create_proj_canon d m rs2 _ hn2
      have hueq : ue1 = ue2 := by
        have := hue1.symm.trans hue2
        simpa using this
      subst hueq
      have hieq : i1 = i2 := by
        have := hinfo1.symm.trans hinfo2
        simpa using this
      subst hieq
      show some (rs1.map projRecord) = some (rs2.map projRecord)
      rw [hc1, hc2]

/-- Every record of a successful creation carries the vendor and product
id of the (last successfully parsed) `HID_ID` of the hid parent's
uevent. -/
theorem create_vendor_product (d : UdevDevice) (n : Nat)
    (rs : List DeviceInfo) (n' : Nat)
    (h : create_device_info_for_device d n = (some rs, n'))
    (uevent : List Char) (info : UeventInfo)
    (hue : d.hid_parent_uevent = some uevent)
    (hinfo : parse_uevent_info uevent = some info) :
    ∀ r ∈ rs, r.vendor_id = info.vendor_id ∧
      r.product_id = info.product_id := by
  obtain ⟨_, _, _, _, ⟨ue2, i2, hue2, hinfo2, hm⟩, _, _⟩ :=
    create_some_spec d n rs n' h
  have hueq : uevent = ue2 := by
    have := hue.symm.trans hue2
    simpa using this
  subst hueq
  have hieq : info = i2 := by
    have := hinfo.symm.trans hinfo2
    simpa using this
  subst hieq
  intro r hr
  constructor
  · exact (congrArg (fun t => t.2.1) (hm r hr)).trans (seedMeta_vendor d info)
  · exact (congrArg (fun t => t.2.2.1) (hm r hr)).trans
      (seedMeta_product d info)

/-- With both filter slots 0, the pre-filter keeps every node. -/
theorem enumerateKeepsNode_wildcard (d : UdevDevice) :
    enumerateKeepsNode d 0 0 = true := by
  unfold enumerateKeepsNode
  simp

/-- With a non-trivial filter and a parseable `HID_ID`, the pre-filter
keeps the node exactly when the first parsed vid/pid match. -/
theorem enumerateKeepsNode_eq_match (d : UdevDevice) (v p : Nat)
    (uevent : List Char) (b dv dp : Nat)
    (h1 : d.hid_parent_uevent = some uevent)
    (h2 : parse_hid_vid_pid_from_uevent uevent = some (b, dv, dp))
    (hvp : v ≠ 0 ∨ p ≠ 0) :
    enumerateKeepsNode d v p = hid_internal_match_device_id dv dp v p := by
  unfold enumerateKeepsNode hid_internal_match_device_id
  rw [if_pos hvp]
  cases hh : d.hid_parent_uevent with
  | none =>
    rw [h1] at hh
    exact absurd hh (by simp)
  | some ue =>
    rw [h1] at hh
    have hup : uevent = ue := by simpa using hh
    subst hup
    simp only [h2]
    rcases Decidable.em (v = 0) with hv | hv <;>
      rcases Decidable.em (p = 0) with hp | hp <;>
      rcases Decidable.em (dv = v) with hdv | hdv <;>
      rcases Decidable.em (dp = p) with hdp | hdp <;>
      simp [hv, hp, hdv, hdp] <;>
      omega

/-- Filtering a record list whose vendor/product ids are all equal keeps
all of it or none of it. -/
theorem filter_const_match (v p v0 p0 : Nat) (rs : List DeviceInfo)
    (hall : ∀ r ∈ rs, r.vendor_id = v0 ∧ r.product_id = p0) :
    rs.filter (fun r =>
      hid_internal_match_device_id r.vendor_id r.product_id v p) =
      (if hid_internal_match_device_id v0 p0 v p = true then rs else []) := by
  cases hm : hid_internal_match_device_id v0 p0 v p with
  | true =>
    rw [if_pos rfl]
    refine List.filter_eq_self.mpr ?_
    intro r hr
    obtain ⟨e1, e2⟩ := hall r hr
    rw [e1, e2]
    exact hm
  | false =>
    rw [if_neg (by simp)]
    refine List.filter_eq_nil_iff.mpr ?_
    intro r hr
    obtain ⟨e1, e2⟩ := hall r hr
    simp [e1, e2, hm]

theorem hid_enumerate_fst_cons_skip (d : UdevDevice)
    (rest : List UdevDevice) (v p n : Nat)
    (hk : enumerateKeepsNode d v p = false) :
    (hid_enumerate (d :: rest) v p n).1 = (hid_enumerate rest v p n).1 := by
  simp [hid_enumerate, hk]

theorem hid_enumerate_fst_cons_none (d : UdevDevice)
    (rest : List UdevDevice) (v p n k : Nat)
    (hk : enumerateKeepsNode d v p = true)
    (hc : create_device_info_for_device d n = (none, k)) :
    (hid_enumerate (d :: rest) v p n).1 = (hid_enumerate rest v p k).1 := by
  simp [hid_enumerate, hk, hc]

theorem hid_enumerate_fst_cons_some (d : UdevDevice)
    (rest : List UdevDevice) (v p n k : Nat) (rs : List DeviceInfo)
    (hk : enumerateKeepsNode d v p = true)
    (hc : create_device_info_for_device d n = (some rs, k)) :
    (hid_enumerate (d :: rest) v p n).1 =
      rs ++ (hid_enumerate rest v p k).1 := by
  simp [hid_enumerate, hk, hc]

/-! ### Hotplug dispatch lemmas (for claim C9) -/

/-- Dispatch only removes callbacks: the surviving list is a sublist (in
particular, registration order is preserved). -/
theorem invoke_callbacks_sublist (info : DeviceInfo) (event : Nat) :
    ∀ cbs : List HotplugCallback,
      List.Sublist (hid_internal_invoke_callbacks info event cbs).1 cbs := by
  intro cbs
  induction cbs with
  | nil => simp [hid_internal_invoke_callbacks]
  | cons cb rest ih =>
    unfold hid_internal_invoke_callbacks
    split
    · split
      · exact List.Sublist.cons cb ih
      · exact List.Sublist.cons₂ cb ih
    · exact List.Sublist.cons₂ cb ih

/-- Every logged invocation belongs to a callback of the input list. -/
theorem invoke_callbacks_log_mem (info : DeviceInfo) (event : Nat) :
    ∀ (cbs : List HotplugCallback) (h r : Int),
      (h, r) ∈ (hid_internal_invoke_callbacks info event cbs).2 →
      h ∈ cbs.map HotplugCallback.handle := by
  intro cbs
  induction cbs with
  | nil =>
    intro h r hm
    simp [hid_internal_invoke_callbacks] at hm
  | cons cb rest ih =>
    intro h r hm
    unfold hid_internal_invoke_callbacks at hm
    split at hm
    · split at hm
      · simp only [List.mem_cons, Prod.mk.injEq] at hm
        rcases hm with ⟨h1, _⟩ | hm
        · simp [h1]
        · simp only [List.map_cons, List.mem_cons]
          exact Or.inr (ih h r hm)
      · simp only [List.mem_cons, Prod.mk.injEq] at hm
        rcases hm with ⟨h1, _⟩ | hm
        · simp [h1]
        · simp only [List.map_cons, List.mem_cons]
          exact Or.inr (ih h r hm)
    · simp only [List.map_cons, List.mem_cons]
      exact Or.inr (ih h r hm)

/-- A callback whose invocation returned non-zero is spliced out: its
handle is absent from the surviving list (handles assumed unique). -/
theorem invoke_callbacks_removes (info : DeviceInfo) (event : Nat) :
    ∀ (cbs : List HotplugCallback) (h r : Int),
      (cbs.map HotplugCallback.handle).Nodup →
      (h, r) ∈ (hid_internal_invoke_callbacks info event cbs).2 → r ≠ 0 →
      h ∉ (hid_internal_invoke_callbacks info event cbs).1.map
        HotplugCallback.handle := by
  intro cbs
  induction cbs with
  | nil =>
    intro h r _ hm _
    simp [hid_internal_invoke_callbacks] at hm
  | cons cb rest ih =>
    intro h r hnd hm hr
    have hndrest : (rest.map HotplugCallback.handle).Nodup := by
      simp only [List.map_cons, List.nodup_cons] at hnd
      exact hnd.2
    have hhead : cb.handle ∉ rest.map HotplugCallback.handle := by
      simp only [List.map_cons, List.nodup_cons] at hnd
      exact hnd.1
    have hsubm : ∀ a : Int,
        a ∈ (hid_internal_invoke_callbacks info event rest).1.map
          HotplugCallback.handle → a ∈ rest.map HotplugCallback.handle :=
      fun a ha =>
        (List.Sublist.map HotplugCallback.handle
          (invoke_callbacks_sublist info event rest)).mem ha
    unfold hid_internal_invoke_callbacks at hm ⊢
    by_cases hcond : cb.events &&& event ≠ 0 ∧
        hid_internal_match_device_id info.vendor_id info.product_id
          cb.vendor_id cb.product_id = true
    · rw [if_pos hcond] at hm ⊢
      by_cases hres : cb.callback cb.handle info event cb.user_data ≠ 0
      · rw [if_pos hres] at hm ⊢
        replace hm : (h, r) ∈
            (cb.handle, cb.callback cb.handle info event cb.user_data) ::
              (hid_internal_invoke_callbacks info event rest).2 := hm
        show h ∉ (hid_internal_invoke_callbacks info event rest).1.map
          HotplugCallback.handle
        rcases List.mem_cons.mp hm with heq | hm
        · have h1 : h = cb.handle := (Prod.mk.injEq _ _ _ _ ▸ heq).1
          subst h1
          intro hc
          exact hhead (hsubm _ hc)
        · exact ih h r hndrest hm hr
      · rw [if_neg hres] at hm ⊢
        replace hm : (h, r) ∈
            (cb.handle, cb.callback cb.handle info event cb.user_data) ::
              (hid_internal_invoke_callbacks info event rest).2 := hm
        show h ∉ (cb :: (hid_internal_invoke_callbacks info event rest).1).map
          HotplugCallback.handle
        rcases List.mem_cons.mp hm with heq | hm
        · have h2 : r = cb.callback cb.handle info event cb.user_data :=
            (Prod.mk.injEq _ _ _ _ ▸ heq).2
          rw [h2] at hr
          exact absurd (by simpa using hres) hr
        · have hne : h ≠ cb.handle := by
            intro heq2
            have hmem := invoke_callbacks_log_mem info event rest h r hm
            rw [heq2] at hmem
            exact hhead hmem
          simp only [List.map_cons, List.mem_cons]
          intro hcontra
          rcases hcontra with hc | hc
          · exact hne hc
          · exact ih h r hndrest hm hr hc
    · rw [if_neg hcond] at hm ⊢
      replace hm : (h, r) ∈
          (hid_internal_invoke_callbacks info event rest).2 := hm
      show h ∉ (cb :: (hid_internal_invoke_callbacks info event rest).1).map
        HotplugCallback.handle
      have hne : h ≠ cb.handle := by
        intro heq2
        have hmem := invoke_callbacks_log_mem info event rest h r hm
        rw [heq2] at hmem
        exact hhead hmem
      simp only [List.map_cons, List.mem_cons]
      intro hcontra
      rcases hcontra with hc | hc
      · exact hne hc
      · exact ih h r hndrest hm hr hc

/-- A handle absent from the callback list never appears in any later
dispatch log. -/
theorem dispatchEvents_absent :
    ∀ (evs : List (DeviceInfo × Nat)) (cbs : List HotplugCallback)
      (h : Int), h ∉ cbs.map HotplugCallback.handle →
      ∀ j, h ∉ ((dispatchEvents cbs evs).getD j []).map Prod.fst := by
  intro evs
  induction evs with
  | nil =>
    intro cbs h _ j
    simp [dispatchEvents]
  | cons ev rest ih =>
    intro cbs h habs j
    obtain ⟨inf, event⟩ := ev
    cases j with
    | zero =>
      simp only [dispatchEvents, List.getD_cons_zero]
      intro hmem
      obtain ⟨⟨h', r'⟩, hm, he⟩ := List.mem_map.mp hmem
      subst he
      exact habs (invoke_callbacks_log_mem inf event cbs _ r' hm)
    | succ j =>
      have habs' : h ∉ (hid_internal_invoke_callbacks inf event cbs).1.map
          HotplugCallback.handle := by
        intro hc
        have hsub : List.Sublist
            ((hid_internal_invoke_callbacks inf event cbs).1.map
              HotplugCallback.handle) (cbs.map HotplugCallback.handle) :=
          List.Sublist.map HotplugCallback.handle
            (invoke_callbacks_sublist inf event cbs)
        exact habs (hsub.mem hc)
      simpa [dispatchEvents] using
        ih (hid_internal_invoke_callbacks inf event cbs).1 h habs' j

/-! # Claims -/

/-- C1: the claim states that a descriptor whose final item is a long
item with its length byte past the end of the array makes the parser
return -1 (malformed) before emitting any pair.  The code does not: the
truncated-long-item path of `get_hid_item_size` falls through to the
short-item sizing and reports success, so `get_next_hid_usage` can never
return -1.  On the one-byte descriptor `F0` it returns 1 (finished)
after skipping the byte, emitting nothing.  This contradicts the
function's own documentation ("Returns 1 if successful, 0 if an invalid
key", "-1 on a malformed report") and its `/* malformed report */`
comments: a code bug. -/
theorem truncated_long_item_reports_finished_not_malformed :
    get_next_hid_usage [0xf0] 1 ⟨0, 0, 0⟩ = (UsageRet.finished, ⟨1, 0, 0⟩) ∧
    collectUsages [0xf0] 1 = [] ∧
    (∀ rpt pos size, (get_hid_item_size rpt pos size).isSome = true) ∧
    (∀ rpt size s, (get_next_hid_usage rpt size s).1 = UsageRet.pair ∨
      (get_next_hid_usage rpt size s).1 = UsageRet.finished) := by
  refine ⟨by decide, by decide, ?_, ?_⟩
  · intro rpt pos size
    obtain ⟨d, k, hsome, _⟩ := get_hid_item_size_spec rpt pos size
    simp [hsome]
  · intro rpt size s
    exact usageLoop_pair_or_finished rpt size (s.pos == 0) size s.pos
      s.usage_page s.usage false

/-- C3: driving `get_next_hid_usage` from position 0 to exhaustion on
`05 01 09 02 A1 01 C0` yields exactly the single pair (1, 2), and on
`05 01 09 06 A1 01 05 0C 09 01 A1 02 C0 C0` exactly (1, 6) then
(0x0C, 1), in that order. -/
theorem concrete_descriptor_usage_pairs :
    collectUsages [0x05, 0x01, 0x09, 0x02, 0xA1, 0x01, 0xC0] 7 =
      [(0x0001, 0x0002)] ∧
    collectUsages [0x05, 0x01, 0x09, 0x06, 0xA1, 0x01, 0x05, 0x0C, 0x09,
      0x01, 0xA1, 0x02, 0xC0, 0xC0] 14 =
      [(0x0001, 0x0006), (0x000C, 0x0001)] := by
  exact ⟨by decide, by decide⟩

/-- C4 counterexample: on descriptor `09 02 C0` (Usage 2, then End
Collection), a Usage item is seen and no Collection item occurs at all
(item tags are 0x08 and 0xc0), no pair is emitted during the call and
the cursor reaches the end, yet the call returns finished rather than
emitting the pair as the claim ("if no pair was emitted but a Usage item
had been seen before any Collection item, emit it once") requires: the
End Collection item cleared the usage-seen flag. -/
theorem usage_before_end_collection_not_emitted :
    itemCmds [0x09, 0x02, 0xC0] 3 3 0 = [0x08, 0xc0] ∧
    0x08 ∈ itemCmds [0x09, 0x02, 0xC0] 3 3 0 ∧
    0xa0 ∉ itemCmds [0x09, 0x02, 0xC0] 3 3 0 ∧
    collectUsages [0x09, 0x02, 0xC0] 3 = [] ∧
    get_next_hid_usage [0x09, 0x02, 0xC0] 3 ⟨0, 0, 0⟩ =
      (UsageRet.finished, ⟨3, 0, 2⟩) := by
  refine ⟨by decide, by decide, by decide, by decide, by decide⟩

/-- C4 (amended): when a call of `get_next_hid_usage` runs to the end of
the descriptor without emitting a pair (no Collection item is reached
with a Usage in scope), it returns 0 (pair) exactly when the call
started at position 0 and a Usage item was seen with no later Main item
(Input/Output/Feature/Collection/End Collection) consuming it; otherwise
it returns 1 (finished) without emission.  A pair emitted by this
end-of-descriptor fallback is emitted once: the next call reports
finished.  On the empty descriptor the very first call reports finished
and leaves the state untouched. -/
theorem parser_exit_behavior :
    (∀ rpt size s, scanEmits false (itemCmds rpt size size s.pos) = false →
      ((get_next_hid_usage rpt size s).1 = UsageRet.pair ↔
        s.pos = 0 ∧
          scanPending false (itemCmds rpt size size s.pos) = true)) ∧
    (∀ rpt size s, 0 < size →
      scanEmits false (itemCmds rpt size size s.pos) = false →
      (get_next_hid_usage rpt size
        ((get_next_hid_usage rpt size s).2)).1 = UsageRet.finished) ∧
    (∀ rpt pg u,
      get_next_hid_usage rpt 0 ⟨0, pg, u⟩ = (UsageRet.finished, ⟨0, pg, u⟩)) := by
  refine ⟨?_, ?_, ?_⟩
  · intro rpt size s hem
    obtain ⟨s', _, hloop⟩ :=
      usageLoop_no_emit rpt size (s.pos == 0) size s.pos s.usage_page
        s.usage false (by omega) hem
    unfold get_next_hid_usage
    rw [hloop]
    by_cases hp : s.pos = 0
    · simp [hp]
    · have : (s.pos == 0) = false := by simp [hp]
      simp [this, hp]
  · intro rpt size s hsz hem
    obtain ⟨s', hs', hloop⟩ :=
      usageLoop_no_emit rpt size (s.pos == 0) size s.pos s.usage_page
        s.usage false (by omega) hem
    have h2 : (get_next_hid_usage rpt size s).2 = s' := by
      unfold get_next_hid_usage
      rw [hloop]
    rw [h2, get_next_hid_usage_at_end rpt size s' hsz hs']
  · intro rpt pg u
    rfl

/-- C4 amended-claim witness: on descriptor `09 02` (a Usage with
nothing after it) the first call does emit the fallback pair. -/
theorem parser_exit_behavior_witness :
    (get_next_hid_usage [0x09, 0x02] 2 ⟨0, 0, 0⟩).1 = UsageRet.pair ↔
      (0 : Nat) = 0 ∧ scanPending false (itemCmds [0x09, 0x02] 2 2 0) = true :=
  parser_exit_behavior.1 [0x09, 0x02] 2 ⟨0, 0, 0⟩ (by decide)

/-- C2: for every raw HID node whose record creation succeeds, a
descriptor yielding k >= 1 usage pairs produces exactly k records; all
fields other than `usage_page` and `usage` (path, vid, pid, serial,
release, interface, manufacturer, product, bus type — compared up to
contents by `metaOf`) are equal across the records; every string field
is a freshly allocated deep copy (its allocation id is drawn from the
`[n, n')` ids consumed by this call, and all ids across all records and
fields are pairwise distinct, so each record is independently owned);
and a node whose descriptor yields no pair, or whose descriptor read
fails, produces exactly one record with `usage_page = usage = 0`. -/
theorem create_device_info_fanout (d : UdevDevice) (n : Nat)
    (rs : List DeviceInfo) (n' : Nat)
    (h : create_device_info_for_device d n = (some rs, n')) :
    (∀ rpt, d.report_descriptor = some rpt →
      collectUsages rpt rpt.length ≠ [] →
      rs.length = (collectUsages rpt rpt.length).length) ∧
    (∀ r1 ∈ rs, ∀ r2 ∈ rs, metaOf r1 = metaOf r2) ∧
    (allocIds rs).Nodup ∧
    (∀ i ∈ allocIds rs, n ≤ i ∧ i < n') ∧
    ((d.report_descriptor = none ∨
      ∃ rpt, d.report_descriptor = some rpt ∧
        collectUsages rpt rpt.length = []) →
      rs.length = 1 ∧ ∀ r ∈ rs, r.usage_page = 0 ∧ r.usage = 0) := by
  obtain ⟨hmeta, hle, hin, hnd, _, hnone, hsome⟩ :=
    create_some_spec d n rs n' h
  refine ⟨?_, hmeta, hnd, hin, ?_⟩
  · intro rpt hrpt hne
    have hm := hsome rpt hrpt
    rw [if_neg hne] at hm
    calc rs.length
        = (rs.map (fun r => (r.usage_page, r.usage))).length := by simp
      _ = (collectUsages rpt rpt.length).length := by rw [hm]
  · intro hcase
    have hmap : rs.map (fun r => (r.usage_page, r.usage)) = [(0, 0)] := by
      rcases hcase with hd | ⟨rpt, hrpt, hp⟩
      · exact hnone hd
      · have hm := hsome rpt hrpt
        rw [if_pos hp] at hm
        exact hm
    constructor
    · have hlen := congrArg List.length hmap
      simpa using hlen
    · intro r hr
      have hmem : (r.usage_page, r.usage) ∈
          rs.map (fun r => (r.usage_page, r.usage)) :=
        List.mem_map_of_mem _ hr
      rw [hmap] at hmem
      simpa using hmem

/-- C2 witness: the concrete Bluetooth node with the two-pair descriptor
produces two records with pairwise-distinct string allocation ids. -/
theorem create_device_info_fanout_witness :
    c2records.length = (collectUsages c2desc c2desc.length).length ∧
    (allocIds c2records).Nodup := by
  have h := create_device_info_fanout c2node 0 c2records 8 (by decide)
  exact ⟨h.1 c2desc rfl (by decide), h.2.2.1⟩

/-- C5 counterexample: a node whose hid-parent uevent carries two
different fully converting `HID_ID` lines (`0003:0001:0002` then
`0003:0003:0004`).  The pre-filter of `hid_enumerate` parses the first
one (vid 1), so the node passes the filter `(1, 0)`; the record
builder's out-parameters keep the values stored by the last one, so the
returned record has `vendor_id = 3`, violating "returns exactly those
records for which v == 0 or the record's vendor_id equals v". -/
theorem enumerate_prefilter_uses_first_hid_id :
    ((hid_enumerate [c5node] 1 0 0).1.map
      (fun r => (r.vendor_id, r.product_id))) = [(3, 4)] ∧
    hid_internal_match_device_id 3 4 1 0 = false ∧
    ((hid_enumerate [c5node] 0 0 0).1.filter (fun r =>
      hid_internal_match_device_id r.vendor_id r.product_id 1 0)) = [] := by
  refine ⟨by decide, by decide, by decide⟩

/-- C5 (amended): provided that on every node's uevent the pre-filter
parse (`parse_hid_vid_pid_from_uevent`, which returns the first
`HID_ID` line whose value fully converts as `%x:%hx:%hx`) agrees with
the builder parse (`parse_uevent_info`, whose out-parameters hold the
values last stored by any `HID_ID` line — `sscanf` stores each field as
it converts, so a later partially converting line can overwrite the
leading fields — as is the case e.g. whenever each uevent contains at
most one `HID_ID` line), `hid_enumerate (v, p)` returns exactly those
device records (up to allocation identities) for which
(v == 0 or vendor_id == v) and (p == 0 or product_id == p), i.e. those
records of the unfiltered enumeration accepted by
`hid_internal_match_device_id`; a filter slot of 0 is a wildcard. -/
theorem hid_enumerate_filter_correct (nodes : List UdevDevice) (v p : Nat) :
    ∀ n m : Nat,
      (∀ d ∈ nodes, ∀ uevent, d.hid_parent_uevent = some uevent →
        ∀ info, parse_uevent_info uevent = some info →
          parse_hid_vid_pid_from_uevent uevent =
            some (info.bus_type, info.vendor_id, info.product_id)) →
      ((hid_enumerate nodes v p n).1).map projRecord =
        ((hid_enumerate nodes 0 0 m).1.filter (fun r =>
          hid_internal_match_device_id r.vendor_id r.product_id v p)).map
          projRecord := by
  induction nodes with
  | nil =>
    intro n m _
    rfl
  | cons d rest ih =>
    intro n m hcons
    have hrest : ∀ d' ∈ rest, ∀ uevent,
        d'.hid_parent_uevent = some uevent →
        ∀ info, parse_uevent_info uevent = some info →
          parse_hid_vid_pid_from_uevent uevent =
            some (info.bus_type, info.vendor_id, info.product_id) :=
      fun d' hd' => hcons d' (List.mem_cons_of_mem _ hd')
    cases hcm : create_device_info_for_device d m with
    | mk o2 k2 =>
    cases hcn : create_device_info_for_device d n with
    | mk o1 k1 =>
    have hsome12 : o1.isSome = o2.isSome := by
      have hs := create_fst_isSome d n m
      rw [hcn, hcm] at hs
      exact hs
    cases o2 with
    | none =>
      have ho1 : o1 = none := by
        cases o1 with
        | none => rfl
        | some rs1 => simp at hsome12
      subst ho1
      rw [hid_enumerate_fst_cons_none d rest 0 0 m k2
        (enumerateKeepsNode_wildcard d) hcm]
      by_cases hk : enumerateKeepsNode d v p = true
      · rw [hid_enumerate_fst_cons_none d rest v p n k1 hk hcn]
        exact ih k1 k2 hrest
      · rw [hid_enumerate_fst_cons_skip d rest v p n (by simpa using hk)]
        exact ih n k2 hrest
    | some rs2 =>
      obtain ⟨rs1, hrs1⟩ : ∃ rs1, o1 = some rs1 := by
        cases o1 with
        | none => simp at hsome12
        | some rs1 => exact ⟨rs1, rfl⟩
      subst hrs1
      rw [hid_enumerate_fst_cons_some d rest 0 0 m k2 rs2
        (enumerateKeepsNode_wildcard d) hcm]
      rw [List.filter_append, List.map_append]
      obtain ⟨ue, info, hue, hinfo, _⟩ := create_proj_canon d m rs2 k2 hcm
      have hvp2 : ∀ r ∈ rs2, r.vendor_id = info.vendor_id ∧
          r.product_id = info.product_id :=
        create_vendor_product d m rs2 k2 hcm ue info hue hinfo
      have hprojeq : rs1.map projRecord = rs2.map projRecord := by
        have hpe := create_proj_eq d n m
        rw [hcn, hcm] at hpe
        simpa using hpe
      have hfilter := filter_const_match v p info.vendor_id info.product_id
        rs2 hvp2
      have hpre := hcons d (List.mem_cons_self d rest) ue hue info hinfo
      by_cases hmatch :
          hid_internal_match_device_id info.vendor_id info.product_id v p =
            true
      · have hk : enumerateKeepsNode d v p = true := by
          by_cases hvp0 : v ≠ 0 ∨ p ≠ 0
          · rw [enumerateKeepsNode_eq_match d v p ue info.bus_type
              info.vendor_id info.product_id hue hpre hvp0]
            exact hmatch
          · push_neg at hvp0
            rw [hvp0.1, hvp0.2]
            exact enumerateKeepsNode_wildcard d
        rw [hid_enumerate_fst_cons_some d rest v p n k1 rs1 hk hcn]
        rw [List.map_append, hfilter, if_pos hmatch, hprojeq]
        exact congrArg (fun l => rs2.map projRecord ++ l) (ih k1 k2 hrest)
      · have hvp0 : v ≠ 0 ∨ p ≠ 0 := by
          by_contra hno
          push_neg at hno
          rw [hno.1, hno.2] at hmatch
          exact hmatch (by simp [hid_internal_match_device_id])
        have hk : enumerateKeepsNode d v p = false := by
          rw [enumerateKeepsNode_eq_match d v p ue info.bus_type
            info.vendor_id info.product_id hue hpre hvp0]
          simpa using hmatch
        rw [hid_enumerate_fst_cons_skip d rest v p n hk]
        rw [hfilter, if_neg (by simpa using hmatch)]
        simpa using ih n k2 hrest

/-- C5 amended-claim witness: the theorem applied to a single
consistent node (one `HID_ID` line) and the filter (1, 0). -/
theorem hid_enumerate_filter_correct_witness :
    ((hid_enumerate [c2node] 1 0 0).1).map projRecord =
      ((hid_enumerate [c2node] 0 0 0).1.filter (fun r =>
        hid_internal_match_device_id r.vendor_id r.product_id 1 0)).map
        projRecord := by
  refine hid_enumerate_filter_correct [c2node] 1 0 0 0 ?_
  intro d hd uevent hue info hinfo
  simp only [List.mem_singleton] at hd
  subst hd
  simp only [c2node, Option.some.injEq] at hue
  subst hue
  have : info = ⟨5, 1, 2, ['u'], ['n']⟩ := by
    have hp : parse_uevent_info
        ("HID_ID=5:1:2\nHID_NAME=n\nHID_UNIQ=u".toList) =
        some ⟨5, 1, 2, ['u'], ['n']⟩ := by decide
    rw [hp] at hinfo
    simpa using hinfo.symm
  subst this
  decide

/-- C6 counterexample: a uevent text of 1041 bytes containing an
`HID_NAME` line, an `HID_UNIQ` line and a parseable `HID_ID` line — but
the `HID_ID` line lies past the 1023 bytes that fit the parser's
1024-byte stack buffer, so `parse_uevent_info` fails on it, refuting the
claimed "for every uevent text" equivalence. -/
theorem uevent_truncation_counterexample :
    ueventClaimRhs longUevent = true ∧
    1023 < longUevent.length ∧
    parse_uevent_info longUevent = none := by
  refine ⟨by decide, by decide, by decide⟩

/-- C6 (amended): for every uevent text that fits the 1024-byte parsing
buffer (length at most 1023 bytes), `parse_uevent_info` succeeds iff the
text contains a line `HID_ID=<value>` whose value parses as
`%x:%hx:%hx`, a line `HID_NAME=<value>` and a line `HID_UNIQ=<value>`.
The scenario-S5 text parses to bus 3, vid 0x05AC, pid 0x8242, serial
"abc", name "Keyboard", and omitting any one key makes the parse
fail. -/
theorem parse_uevent_info_characterisation :
    (∀ t : List Char, t.length ≤ 1023 →
      (parse_uevent_info t).isSome = ueventClaimRhs t) ∧
    parse_uevent_info s5Uevent =
      some ⟨3, 0x05AC, 0x8242, ['a', 'b', 'c'],
        ['K', 'e', 'y', 'b', 'o', 'a', 'r', 'd']⟩ ∧
    parse_uevent_info s5NoId = none ∧
    parse_uevent_info s5NoName = none ∧
    parse_uevent_info s5NoUniq = none := by
  refine ⟨?_, by decide, by decide, by decide, by decide⟩
  intro t ht
  rw [parse_uevent_info_isSome, List.take_of_length_le ht]

/-- C6 amended-claim witness: the characterisation applied to the
scenario-S5 text. -/
theorem parse_uevent_info_characterisation_witness :
    (parse_uevent_info s5Uevent).isSome = ueventClaimRhs s5Uevent :=
  parse_uevent_info_characterisation.1 s5Uevent (by decide)

/-- C7: the claim (and the specification) require
`hid_hotplug_register_callback` to return 0 on success and -1 only on
failure.  The function body ends in `return -1;` on every path: it
returns -1 for every input, including a fully successful registration
(valid events/flags, non-null callback, monitor set up, callback
installed as the list head, worker started, handle 1 handed out).  The
specification itself flags this as a bug in the source. -/
theorem register_callback_always_returns_minus_one :
    (∀ nodes vid pid events flags cb ud ok fd ctx n,
      (hid_hotplug_register_callback nodes vid pid events flags cb ud ok fd
        ctx n).1 = -1) ∧
    (hid_hotplug_register_callback [] 0 0 1 0 (some fun _ _ _ _ => 0) 0 true
      5 initialHotplugContext 0).1 = -1 ∧
    ((hid_hotplug_register_callback [] 0 0 1 0 (some fun _ _ _ _ => 0) 0 true
      5 initialHotplugContext 0).2.2.1.hotplug_cbs.map
        HotplugCallback.handle) = [1] ∧
    (hid_hotplug_register_callback [] 0 0 1 0 (some fun _ _ _ _ => 0) 0 true
      5 initialHotplugContext 0).2.2.1.monitor_fd = 5 ∧
    (hid_hotplug_register_callback [] 0 0 1 0 (some fun _ _ _ _ => 0) 0 true
      5 initialHotplugContext 0).2.2.1.thread_started = true ∧
    (hid_hotplug_register_callback [] 0 0 1 0 (some fun _ _ _ _ => 0) 0 true
      5 initialHotplugContext 0).2.1 = some 1 := by
  refine ⟨?_, rfl, rfl, rfl, rfl, rfl⟩
  intro nodes vid pid events flags cb ud ok fd ctx n
  unfold hid_hotplug_register_callback
  split
  · rfl
  · split
    · rfl
    · split
      · rfl
      · split
        · rfl
        · rfl

/-- C8: the claim says that after deregistering the last callback the
teardown makes the monitor fd negative so the worker observes
`monitor_fd < 0` and exits.  The code does free `devs` and unreference
monitor and udev, but `hid_internal_hotplug_cleanup` never touches
`monitor_fd` (and nothing joins the thread), so after removing the last
callback the fd keeps its armed value and the worker loop condition
`monitor_fd > 0` still holds: the worker never exits.  The dead
`monitor_fd < 0` design (also implied by the "timeout only affects how
much time it takes to stop the thread" comment) marks this as a code
bug. -/
theorem deregister_last_callback_leaves_monitor_armed :
    (∀ ctx : HotplugContext,
      (hid_internal_hotplug_cleanup ctx).monitor_fd = ctx.monitor_fd ∧
      (hid_internal_hotplug_cleanup ctx).thread_started =
        ctx.thread_started) ∧
    (hid_hotplug_deregister_callback 1 armedCtx).1 = 0 ∧
    (hid_hotplug_deregister_callback 1 armedCtx).2.hotplug_cbs = [] ∧
    (hid_hotplug_deregister_callback 1 armedCtx).2.devs = [] ∧
    (hid_hotplug_deregister_callback 1 armedCtx).2.mon_armed = false ∧
    (hid_hotplug_deregister_callback 1 armedCtx).2.udev_armed = false ∧
    (hid_hotplug_deregister_callback 1 armedCtx).2.monitor_fd = 5 ∧
    hotplugThreadKeepsRunning
      (hid_hotplug_deregister_callback 1 armedCtx).2 = true := by
  refine ⟨?_, rfl, rfl, rfl, rfl, rfl, rfl, rfl⟩
  intro ctx
  unfold hid_internal_hotplug_cleanup
  split
  · exact ⟨rfl, rfl⟩
  · exact ⟨rfl, rfl⟩

/-- C9: a callback whose invocation returns non-zero during dispatch is
spliced out of the list at that point (its handle is gone from the
surviving list) and is never invoked again for any subsequent event
(its handle never appears in a later dispatch log), while dispatch
continues with the remaining callbacks in registration order (the
surviving list is a sublist of the input list).  Handles are assumed
unique, as produced by the registration counter. -/
theorem callback_auto_deregistration :
    (∀ info event cbs,
      List.Sublist (hid_internal_invoke_callbacks info event cbs).1 cbs) ∧
    (∀ info event (cbs : List HotplugCallback) (h r : Int),
      (cbs.map HotplugCallback.handle).Nodup →
      (h, r) ∈ (hid_internal_invoke_callbacks info event cbs).2 → r ≠ 0 →
      h ∉ (hid_internal_invoke_callbacks info event cbs).1.map
        HotplugCallback.handle) ∧
    (∀ (cbs : List HotplugCallback) (evs : List (DeviceInfo × Nat))
      (i j : Nat) (h r : Int),
      (cbs.map HotplugCallback.handle).Nodup → i < j →
      (h, r) ∈ (dispatchEvents cbs evs).getD i [] → r ≠ 0 →
      h ∉ ((dispatchEvents cbs evs).getD j []).map Prod.fst) := by
  refine ⟨invoke_callbacks_sublist, invoke_callbacks_removes, ?_⟩
  intro cbs evs
  induction evs generalizing cbs with
  | nil =>
    intro i j h r _ _ hm _
    simp [dispatchEvents] at hm
  | cons ev rest ih =>
    intro i j h r hnd hij hm hr
    obtain ⟨inf, event⟩ := ev
    have hnd' : ((hid_internal_invoke_callbacks inf event cbs).1.map
        HotplugCallback.handle).Nodup :=
      (List.Sublist.map HotplugCallback.handle
        (invoke_callbacks_sublist inf event cbs)).nodup hnd
    cases j with
    | zero => omega
    | succ j =>
      cases i with
      | zero =>
        replace hm : (h, r) ∈ (hid_internal_invoke_callbacks inf event cbs).2 := by
          simpa [dispatchEvents] using hm
        have habs : h ∉ (hid_internal_invoke_callbacks inf event cbs).1.map
            HotplugCallback.handle :=
          invoke_callbacks_removes inf event cbs h r hnd hm hr
        simpa [dispatchEvents] using
          dispatchEvents_absent rest
            (hid_internal_invoke_callbacks inf event cbs).1 h habs j
      | succ i =>
        replace hm : (h, r) ∈
            (dispatchEvents (hid_internal_invoke_callbacks inf event cbs).1
              rest).getD i [] := by
          simpa [dispatchEvents] using hm
        simpa [dispatchEvents] using
          ih (hid_internal_invoke_callbacks inf event cbs).1 i j h r hnd'
            (by omega) hm hr

/-- C9 witness: with two wildcard callbacks, handle 1 returning 1 on the
first event, its handle is absent from the second event's dispatch
log. -/
theorem callback_auto_deregistration_witness :
    (1 : Int) ∉ ((dispatchEvents c9cbs c9evs).getD 1 []).map Prod.fst :=
  callback_auto_deregistration.2.2 c9cbs c9evs 0 1 1 1 (by decide)
    (by decide) (by decide) (by decide)

/-- C10: `get_next_hid_usage` terminates on every descriptor and start
position: `get_hid_item_size` reports success with `key_size` 1 or 3 in
every case and a cursor advance `data_len + key_size ≥ 1`, so the loop
needs at most `size - pos` iterations: any fuel of at least that many
steps computes the same (stable) result. -/
theorem parser_terminates :
    (∀ rpt pos size, ∃ d k, get_hid_item_size rpt pos size = some (d, k) ∧
      (k = 1 ∨ k = 3) ∧ 1 ≤ d + k) ∧
    (∀ rpt size initial fuel pos pg u f, size - pos ≤ fuel →
      usageLoop rpt size initial fuel pos pg u f =
        usageLoop rpt size initial (size - pos) pos pg u f) :=
  ⟨get_hid_item_size_spec,
   fun rpt size initial fuel pos pg u f h =>
     usageLoop_fuel_irrelevant rpt size initial fuel pos pg u f h⟩

/-- C10 witness: on the two-byte descriptor `05 01`, fuel 9 and the
minimal fuel 2 agree. -/
theorem parser_terminates_witness :
    usageLoop [0x05, 0x01] 2 true 9 0 0 0 false =
      usageLoop [0x05, 0x01] 2 true (2 - 0) 0 0 0 false :=
  parser_terminates.2 [0x05, 0x01] 2 true 9 0 0 0 false (by decide)

end HidapiLinux
